import Mathlib

/-! Token factory message server.

A shallow embedding of `x/tokenfactory/keeper/msg_server.go`: the eight
message handlers of the token factory keeper, written as functions from the
state carried by the SDK context to the state at handler exit together with
the handler's result.

The handlers are translated statement by statement.  What they call but the
source file does not contain is either taken as a parameter (the message
types' `ValidateBasic`, the bech32 address parser, the ledger's blocked
address policy, the sudo permission check) or modelled from the
specification and marked as such (the authority store, the denomination
model, the ledger's balance primitives).
-/

namespace TokenFactory

/-! ## Data model -/

/-- Error values a handler can return.  The first five are the ones named in
`msg_server.go`; the others come from collaborators the handlers call. -/
inductive Err where
  /-- `common.ErrNilGrpcMsg`, bound to `errNilMsg`. -/
  | ErrNilGrpcMsg
  /-- `types.ErrInvalidSender`, returned by `ChangeAdmin`. -/
  | ErrInvalidSender
  /-- `types.ErrUnauthorized`, returned by `Mint`, `Burn`, `SetDenomMetadata`. -/
  | ErrUnauthorized
  /-- `types.ErrBlockedAddress`, returned by `mint` and `burn`. -/
  | ErrBlockedAddress
  /-- `govtypes.ErrInvalidSigner`, returned by `UpdateModuleParams`. -/
  | ErrInvalidSigner
  /-- A failure of structural validation (`ValidateBasic`, `Params.Validate`);
  the code tells failures apart. -/
  | ErrValidationFailed (code : Nat)
  /-- The authority store has no record for the denomination. -/
  | ErrNotFound
  /-- The authority store already has a record for the denomination. -/
  | ErrAlreadyExists
  /-- The denomination string is outside the factory namespace. -/
  | ErrInvalidNamespace
  /-- The bech32 parser rejected an address string. -/
  | ErrInvalidAddress
  /-- The ledger found fewer coins than a transfer or burn needs. -/
  | ErrInsufficientFunds
  /-- The sudo permission check rejected the sender. -/
  | ErrSudoUnauthorized
  deriving DecidableEq, Repr

/-- What a handler call comes to: Go's `(resp, nil)`, Go's `(_, err)`, or a
run-time fault (a nil pointer dereference). -/
inductive Outcome (α : Type) where
  | ok (resp : α)
  | error (e : Err)
  | fault
  deriving DecidableEq, Repr

/-- The byte form of an account address (`sdk.AccAddress`). -/
structure AccAddress where
  raw : String
  deriving DecidableEq, Repr

/-- The `sdk.Coin` of a message.  The ledger holds no negative amount and
`sdk.NewCoins` accepts none, so the amount is a natural number. -/
structure Coin where
  Denom : String
  Amount : Nat
  deriving DecidableEq, Repr

/-- The `banktypes.Metadata` of a denomination, keyed by `Base`. -/
structure Metadata where
  Base : String
  Description : String
  deriving DecidableEq, Repr

/-- The authority record `types.DenomAuthorityMetadata`: one admin. -/
structure DenomAuthorityMetadata where
  Admin : String
  deriving DecidableEq, Repr

/-- Modelled from the spec: the module parameters (`types.ModuleParams`), a
single global record whose fields the source does not show; one numeric
field stands for its content. -/
structure ModuleParams where
  DenomCreationGasConsume : Nat
  deriving DecidableEq, Repr

/-- The typed events the handlers emit. -/
inductive Event where
  | EventChangeAdmin (Denom OldAdmin NewAdmin : String)
  | EventMint (Coin : Coin) (ToAddr Caller : String)
  | EventBurn (Coin : Coin) (FromAddr Caller : String)
  | EventSetDenomMetadata (Denom : String) (Metadata : Metadata) (Caller : String)
  deriving DecidableEq, Repr

/-! ### Messages and responses -/

structure MsgCreateDenom where
  Sender : String
  Subdenom : String
  deriving DecidableEq, Repr

structure MsgCreateDenomResponse where
  NewTokenDenom : String
  deriving DecidableEq, Repr

structure MsgChangeAdmin where
  Sender : String
  Denom : String
  NewAdmin : String
  deriving DecidableEq, Repr

structure MsgChangeAdminResponse where
  deriving DecidableEq, Repr

structure MsgUpdateModuleParams where
  Authority : String
  Params : ModuleParams
  deriving DecidableEq, Repr

structure MsgUpdateModuleParamsResponse where
  deriving DecidableEq, Repr

structure MsgMint where
  Sender : String
  Coin : Coin
  MintTo : String
  deriving DecidableEq, Repr

structure MsgMintResponse where
  MintTo : String
  deriving DecidableEq, Repr

structure MsgBurn where
  Sender : String
  Coin : Coin
  BurnFrom : String
  deriving DecidableEq, Repr

structure MsgBurnResponse where
  deriving DecidableEq, Repr

structure MsgSetDenomMetadata where
  Sender : String
  Metadata : Metadata
  deriving DecidableEq, Repr

structure MsgSetDenomMetadataResponse where
  deriving DecidableEq, Repr

structure MsgBurnNative where
  Sender : String
  Coin : Coin
  deriving DecidableEq, Repr

structure MsgBurnNativeResponse where
  deriving DecidableEq, Repr

structure MsgSudoSetDenomMetadata where
  Sender : String
  Metadata : Metadata
  deriving DecidableEq, Repr

structure MsgSudoSetDenomMetadataResponse where
  deriving DecidableEq, Repr

/-! ### State -/

/-- Modelled from the spec: the ledger behind `bankKeeper` (the Ledger
Adapter), as the balances of every account, the total supply of every
denomination and the metadata registry. -/
structure Bank where
  balances : AccAddress → String → Nat
  supply : String → Nat
  denomMetaData : String → Option Metadata

/-- The state reached through `sdk.Context`: the authority store
(`Store.denomAdmins`, `Store.ModuleParams`), the ledger and the events
emitted so far. -/
structure Ctx where
  denomAdmins : String → Option DenomAuthorityMetadata
  ModuleParams : ModuleParams
  bank : Bank
  events : List Event

/-- What the handlers use from the packages `types` and `sdk` but whose body
is not in the source: the structural validation of each message type, of the
module parameters, and the bech32 address parser.  Each returns Go's `error`,
here `none` for `nil`. -/
structure Types where
  ValidateBasicCreateDenom : MsgCreateDenom → Option Err
  ValidateBasicChangeAdmin : MsgChangeAdmin → Option Err
  ValidateBasicUpdateModuleParams : MsgUpdateModuleParams → Option Err
  ValidateBasicMint : MsgMint → Option Err
  ValidateBasicBurn : MsgBurn → Option Err
  ValidateBasicSetDenomMetadata : MsgSetDenomMetadata → Option Err
  ValidateBasicSudoSetDenomMetadata : MsgSudoSetDenomMetadata → Option Err
  ParamsValidate : ModuleParams → Option Err
  AccAddressFromBech32 : String → Except Err AccAddress

/-- The keeper: its configured governance `authority`, and what its
collaborators `bankKeeper` and `sudoKeeper` decide outside the ledger state:
the blocked address policy, the address of the module account and the sudo
permission check. -/
structure Keeper where
  authority : String
  BlockedAddr : AccAddress → Bool
  GetModuleAddress : String → AccAddress
  CheckPermissions : AccAddress → Option Err

/-! ## Denomination model -/

/-- Modelled from the spec: the reserved factory prefix of the canonical form
`factory/<creator>/<subdenom>` (`types.FactoryPrefix` is not in the source). -/
def FactoryPrefix : String := "factory"

/-- The identifier `types.TFDenom`: a creator and a subdenom. -/
structure TFDenom where
  Creator : String
  Subdenom : String
  deriving DecidableEq, Repr

/-- Modelled from the spec: `TFDenom.Denom().String()`, the canonical string
`factory/<creator>/<subdenom>` (BuildCanonical; the method is not in the
source). -/
def TFDenom.Denom (denom : TFDenom) : String :=
  FactoryPrefix ++ "/" ++ denom.Creator ++ "/" ++ denom.Subdenom

/-- Modelled from the spec: `DenomStr.Validate` (ValidateNamespace; the method
is not in the source): the string starts with the reserved factory prefix. -/
def DenomStr.Validate (denomStr : String) : Option Err :=
  if FactoryPrefix.data.isPrefixOf denomStr.data then none
  else some Err.ErrInvalidNamespace

/-! ## Authority store -/

/-- Modelled from the spec: `Store.GetDenomAuthorityMetadata` (GetAuthority;
not in the source): the record of the denomination, or NotFound. -/
def GetDenomAuthorityMetadata (ctx : Ctx) (denom : String) :
    Except Err DenomAuthorityMetadata :=
  match ctx.denomAdmins denom with
  | some authData => .ok authData
  | none => .error Err.ErrNotFound

/-- Modelled from the spec: `Store.GetAdmin` (not in the source), the admin
of the denomination's record, or NotFound. -/
def GetAdmin (ctx : Ctx) (denom : String) : Except Err String :=
  match GetDenomAuthorityMetadata ctx denom with
  | .ok authData => .ok authData.Admin
  | .error e => .error e

/-- The map write `Store.denomAdmins.Insert`: an unconditional overwrite of
the record under the key. -/
def denomAdminsInsert (ctx : Ctx) (denom : String)
    (authData : DenomAuthorityMetadata) : Ctx :=
  { ctx with denomAdmins := fun d => if d = denom then some authData else ctx.denomAdmins d }

/-- Modelled from the spec: `Store.InsertDenom` (not in the source): builds
the canonical denom, checks that no authority record exists under that key,
and writes the record whose admin is the creator. -/
def InsertDenom (ctx : Ctx) (denom : TFDenom) : Ctx × Option Err :=
  match ctx.denomAdmins denom.Denom with
  | some _ => (ctx, some Err.ErrAlreadyExists)
  | none => (denomAdminsInsert ctx denom.Denom { Admin := denom.Creator }, none)

/-- The write `Store.ModuleParams.Set`. -/
def ModuleParamsSet (ctx : Ctx) (params : ModuleParams) : Ctx :=
  { ctx with ModuleParams := params }

/-- The call `ctx.EventManager().EmitTypedEvent`: the event is appended to
the context's events. -/
def EmitTypedEvent (ctx : Ctx) (ev : Event) : Ctx :=
  { ctx with events := ctx.events ++ [ev] }

/-! ## Ledger adapter -/

/-- The module's name, `types.ModuleName`, which names its module account. -/
def ModuleName : String := "tokenfactory"

/-- Modelled from the spec: crediting one account with a coin, the step the
ledger's mint and transfer primitives share. -/
def Bank.addCoins (b : Bank) (addr : AccAddress) (coin : Coin) : Bank :=
  { b with balances := fun a d =>
      if a = addr ∧ d = coin.Denom then b.balances a d + coin.Amount else b.balances a d }

/-- Modelled from the spec: debiting one account, which fails with a
ledger-level insufficiency when the account holds less than the coin. -/
def Bank.subUnlockedCoins (b : Bank) (addr : AccAddress) (coin : Coin) : Except Err Bank :=
  if b.balances addr coin.Denom < coin.Amount then .error Err.ErrInsufficientFunds
  else .ok { b with balances := fun a d =>
      if a = addr ∧ d = coin.Denom then b.balances a d - coin.Amount else b.balances a d }

/-- Modelled from the spec: `bankKeeper.MintCoins(moduleAccount, coins)`: the
module account is credited and the total supply grows by the coin. -/
def MintCoins (k : Keeper) (b : Bank) (moduleName : String) (coins : Coin) : Except Err Bank :=
  let b1 := b.addCoins (k.GetModuleAddress moduleName) coins
  .ok { b1 with supply := fun d =>
      if d = coins.Denom then b1.supply d + coins.Amount else b1.supply d }

/-- Modelled from the spec: `bankKeeper.BurnCoins(moduleAccount, coins)`: the
module account is debited and the total supply shrinks by the coin. -/
def BurnCoins (k : Keeper) (b : Bank) (moduleName : String) (coins : Coin) : Except Err Bank :=
  match b.subUnlockedCoins (k.GetModuleAddress moduleName) coins with
  | .error e => .error e
  | .ok b1 => .ok { b1 with supply := fun d =>
      if d = coins.Denom then b1.supply d - coins.Amount else b1.supply d }

/-- Modelled from the spec: the ledger's transfer: debit the sender, then
credit the recipient. -/
def SendCoins (b : Bank) (fromAddr toAddr : AccAddress) (coins : Coin) : Except Err Bank :=
  match b.subUnlockedCoins fromAddr coins with
  | .error e => .error e
  | .ok b1 => .ok (b1.addCoins toAddr coins)

/-- Modelled from the spec: `bankKeeper.SendCoinsFromModuleToAccount`. -/
def SendCoinsFromModuleToAccount (k : Keeper) (b : Bank) (senderModule : String)
    (recipientAddr : AccAddress) (coins : Coin) : Except Err Bank :=
  SendCoins b (k.GetModuleAddress senderModule) recipientAddr coins

/-- Modelled from the spec: `bankKeeper.SendCoinsFromAccountToModule`. -/
def SendCoinsFromAccountToModule (k : Keeper) (b : Bank) (senderAddr : AccAddress)
    (recipientModule : String) (coins : Coin) : Except Err Bank :=
  SendCoins b senderAddr (k.GetModuleAddress recipientModule) coins

/-- Modelled from the spec: `bankKeeper.SetDenomMetaData`: the registry entry
of the metadata's base denomination is replaced. -/
def SetDenomMetaData (b : Bank) (denomMetaData : Metadata) : Bank :=
  { b with denomMetaData := fun d =>
      if d = denomMetaData.Base then some denomMetaData else b.denomMetaData d }

/-- The `sdk.NewCoins(coin)` of a single coin. -/
def NewCoins (coin : Coin) : Coin := coin

/-! ## Message handlers -/

/-- The handler `Keeper.CreateDenom`. -/
def CreateDenom (t : Types) (_k : Keeper) (ctx : Ctx) (txMsg : Option MsgCreateDenom) :
    Ctx × Outcome MsgCreateDenomResponse :=
  match txMsg with
  | none => (ctx, .error Err.ErrNilGrpcMsg)
  | some txMsg =>
    match t.ValidateBasicCreateDenom txMsg with
    | some err => (ctx, .error err)
    | none =>
      let denom : TFDenom := { Creator := txMsg.Sender, Subdenom := txMsg.Subdenom }
      match InsertDenom ctx denom with
      | (ctx1, some err) => (ctx1, .error err)
      | (ctx1, none) => (ctx1, .ok { NewTokenDenom := denom.Denom })

/-- The handler `Keeper.ChangeAdmin`. -/
def ChangeAdmin (t : Types) (_k : Keeper) (ctx : Ctx) (txMsg : Option MsgChangeAdmin) :
    Ctx × Outcome MsgChangeAdminResponse :=
  match txMsg with
  | none => (ctx, .error Err.ErrNilGrpcMsg)
  | some txMsg =>
    match t.ValidateBasicChangeAdmin txMsg with
    | some err => (ctx, .error err)
    | none =>
      match GetDenomAuthorityMetadata ctx txMsg.Denom with
      | .error err => (ctx, .error err)
      | .ok authData =>
        if txMsg.Sender ≠ authData.Admin then (ctx, .error Err.ErrInvalidSender)
        else
          let authData := { authData with Admin := txMsg.NewAdmin }
          let ctx1 := denomAdminsInsert ctx txMsg.Denom authData
          (EmitTypedEvent ctx1 (.EventChangeAdmin txMsg.Denom txMsg.Sender txMsg.NewAdmin),
            .ok {})

/-- The handler `Keeper.UpdateModuleParams`. -/
def UpdateModuleParams (t : Types) (k : Keeper) (ctx : Ctx)
    (txMsg : Option MsgUpdateModuleParams) : Ctx × Outcome MsgUpdateModuleParamsResponse :=
  match txMsg with
  | none => (ctx, .error Err.ErrNilGrpcMsg)
  | some txMsg =>
    match t.ValidateBasicUpdateModuleParams txMsg with
    | some err => (ctx, .error err)
    | none =>
      if k.authority ≠ txMsg.Authority then (ctx, .error Err.ErrInvalidSigner)
      else
        match t.ParamsValidate txMsg.Params with
        | some err => (ctx, .error err)
        | none => (ModuleParamsSet ctx txMsg.Params, .ok {})

/-- The helper `Keeper.mint`: namespace check, mint to the module account,
parse the recipient, blocked address check, transfer to the recipient.  The
context it returns is the one at exit, also when it fails. -/
def mint (t : Types) (k : Keeper) (ctx : Ctx) (coin : Coin) (mintTo : String)
    (_caller : String) : Ctx × Option Err :=
  match DenomStr.Validate coin.Denom with
  | some err => (ctx, some err)
  | none =>
    let coins := NewCoins coin
    match MintCoins k ctx.bank ModuleName coins with
    | .error err => (ctx, some err)
    | .ok bank1 =>
      let ctx1 := { ctx with bank := bank1 }
      match t.AccAddressFromBech32 mintTo with
      | .error err => (ctx1, some err)
      | .ok mintToAddr =>
        if k.BlockedAddr mintToAddr then (ctx1, some Err.ErrBlockedAddress)
        else
          match SendCoinsFromModuleToAccount k ctx1.bank ModuleName mintToAddr coins with
          | .error err => (ctx1, some err)
          | .ok bank2 => ({ ctx1 with bank := bank2 }, none)

/-- The handler `Keeper.Mint`. -/
def Mint (t : Types) (k : Keeper) (ctx : Ctx) (txMsg : Option MsgMint) :
    Ctx × Outcome MsgMintResponse :=
  match txMsg with
  | none => (ctx, .error Err.ErrNilGrpcMsg)
  | some txMsg =>
    match t.ValidateBasicMint txMsg with
    | some err => (ctx, .error err)
    | none =>
      match GetAdmin ctx txMsg.Coin.Denom with
      | .error err => (ctx, .error err)
      | .ok admin =>
        if txMsg.Sender ≠ admin then (ctx, .error Err.ErrUnauthorized)
        else
          let txMsg := if txMsg.MintTo = "" then { txMsg with MintTo := txMsg.Sender } else txMsg
          match mint t k ctx txMsg.Coin txMsg.MintTo txMsg.Sender with
          | (ctx1, some err) => (ctx1, .error err)
          | (ctx1, none) =>
            (EmitTypedEvent ctx1 (.EventMint txMsg.Coin txMsg.MintTo txMsg.Sender),
              .ok { MintTo := txMsg.MintTo })

/-- The helper `Keeper.burn`: namespace check, parse the source, blocked
address check, transfer to the module account, burn from it. -/
def burn (t : Types) (k : Keeper) (ctx : Ctx) (coin : Coin) (burnFrom : String)
    (_caller : String) : Ctx × Option Err :=
  match DenomStr.Validate coin.Denom with
  | some err => (ctx, some err)
  | none =>
    match t.AccAddressFromBech32 burnFrom with
    | .error err => (ctx, some err)
    | .ok burnFromAddr =>
      if k.BlockedAddr burnFromAddr then (ctx, some Err.ErrBlockedAddress)
      else
        let coins := NewCoins coin
        match SendCoinsFromAccountToModule k ctx.bank burnFromAddr ModuleName coins with
        | .error err => (ctx, some err)
        | .ok bank1 =>
          let ctx1 := { ctx with bank := bank1 }
          match BurnCoins k ctx1.bank ModuleName coins with
          | .error err => (ctx1, some err)
          | .ok bank2 => ({ ctx1 with bank := bank2 }, none)

/-- The handler `Keeper.Burn`. -/
def Burn (t : Types) (k : Keeper) (ctx : Ctx) (txMsg : Option MsgBurn) :
    Ctx × Outcome MsgBurnResponse :=
  match txMsg with
  | none => (ctx, .error Err.ErrNilGrpcMsg)
  | some txMsg =>
    match t.ValidateBasicBurn txMsg with
    | some err => (ctx, .error err)
    | none =>
      match GetAdmin ctx txMsg.Coin.Denom with
      | .error err => (ctx, .error err)
      | .ok admin =>
        if txMsg.Sender ≠ admin then (ctx, .error Err.ErrUnauthorized)
        else
          let txMsg := if txMsg.BurnFrom = "" then { txMsg with BurnFrom := txMsg.Sender } else txMsg
          match burn t k ctx txMsg.Coin txMsg.BurnFrom txMsg.Sender with
          | (ctx1, some err) => (ctx1, .error err)
          | (ctx1, none) =>
            (EmitTypedEvent ctx1 (.EventBurn txMsg.Coin txMsg.BurnFrom txMsg.Sender), .ok {})

/-- The handler `Keeper.SetDenomMetadata`. -/
def SetDenomMetadata (t : Types) (_k : Keeper) (ctx : Ctx)
    (txMsg : Option MsgSetDenomMetadata) : Ctx × Outcome MsgSetDenomMetadataResponse :=
  match txMsg with
  | none => (ctx, .error Err.ErrNilGrpcMsg)
  | some txMsg =>
    match t.ValidateBasicSetDenomMetadata txMsg with
    | some err => (ctx, .error err)
    | none =>
      let denom := txMsg.Metadata.Base
      match GetAdmin ctx denom with
      | .error err => (ctx, .error err)
      | .ok admin =>
        if txMsg.Sender ≠ admin then (ctx, .error Err.ErrUnauthorized)
        else
          let ctx1 := { ctx with bank := SetDenomMetaData ctx.bank txMsg.Metadata }
          (EmitTypedEvent ctx1 (.EventSetDenomMetadata denom txMsg.Metadata txMsg.Sender),
            .ok {})

/-- The handler `Keeper.BurnNative`, which reads `msg.Sender` without a nil
check. -/
def BurnNative (t : Types) (k : Keeper) (ctx : Ctx) (msg : Option MsgBurnNative) :
    Ctx × Outcome MsgBurnNativeResponse :=
  match msg with
  | none => (ctx, .fault)
  | some msg =>
    match t.AccAddressFromBech32 msg.Sender with
    | .error err => (ctx, .error err)
    | .ok sender =>
      let coins := NewCoins msg.Coin
      match SendCoinsFromAccountToModule k ctx.bank sender ModuleName coins with
      | .error err => (ctx, .error err)
      | .ok bank1 =>
        let ctx1 := { ctx with bank := bank1 }
        match BurnCoins k ctx1.bank ModuleName coins with
        | .error err => (ctx1, .error err)
        | .ok bank2 => ({ ctx1 with bank := bank2 }, .ok {})

/-- The handler `Keeper.SudoSetDenomMetadata`.  The sender was parsed in
`ValidateBasic`, so the parse error is dropped as in the source; a sender
that does not parse gives the empty address. -/
def SudoSetDenomMetadata (t : Types) (k : Keeper) (ctx : Ctx)
    (txMsg : Option MsgSudoSetDenomMetadata) : Ctx × Outcome MsgSudoSetDenomMetadataResponse :=
  match txMsg with
  | none => (ctx, .error Err.ErrNilGrpcMsg)
  | some txMsg =>
    match t.ValidateBasicSudoSetDenomMetadata txMsg with
    | some err => (ctx, .error err)
    | none =>
      let senderAddr : AccAddress :=
        match t.AccAddressFromBech32 txMsg.Sender with
        | .ok addr => addr
        | .error _ => { raw := "" }
      match k.CheckPermissions senderAddr with
      | some err => (ctx, .error err)
      | none => ({ ctx with bank := SetDenomMetaData ctx.bank txMsg.Metadata }, .ok {})

/-! ## Command sequences -/

/-- The eight commands of the message server, each with the message pointer
its handler receives (`none` for a nil pointer). -/
inductive Command where
  | CreateDenom (txMsg : Option MsgCreateDenom)
  | ChangeAdmin (txMsg : Option MsgChangeAdmin)
  | UpdateModuleParams (txMsg : Option MsgUpdateModuleParams)
  | Mint (txMsg : Option MsgMint)
  | Burn (txMsg : Option MsgBurn)
  | SetDenomMetadata (txMsg : Option MsgSetDenomMetadata)
  | BurnNative (msg : Option MsgBurnNative)
  | SudoSetDenomMetadata (txMsg : Option MsgSudoSetDenomMetadata)
  deriving DecidableEq, Repr

/-- The state at the exit of the handler a command is dispatched to. -/
def deliver (t : Types) (k : Keeper) (ctx : Ctx) : Command → Ctx
  | .CreateDenom txMsg => (CreateDenom t k ctx txMsg).1
  | .ChangeAdmin txMsg => (ChangeAdmin t k ctx txMsg).1
  | .UpdateModuleParams txMsg => (UpdateModuleParams t k ctx txMsg).1
  | .Mint txMsg => (Mint t k ctx txMsg).1
  | .Burn txMsg => (Burn t k ctx txMsg).1
  | .SetDenomMetadata txMsg => (SetDenomMetadata t k ctx txMsg).1
  | .BurnNative msg => (BurnNative t k ctx msg).1
  | .SudoSetDenomMetadata txMsg => (SudoSetDenomMetadata t k ctx txMsg).1

/-- The state after a sequence of commands, applied one at a time in order. -/
def run (t : Types) (k : Keeper) (ctx : Ctx) : List Command → Ctx
  | [] => ctx
  | c :: cs => run t k (deliver t k ctx c) cs

/-! ## A concrete world

A keeper, a validation policy and a state on which the statements below are
evaluated. -/

/-- A validation policy: a message is structurally valid when its sender (or
authority) is not empty, the parameters when the gas figure is below 1000,
and an address string parses when it is not empty. -/
def sampleTypes : Types where
  ValidateBasicCreateDenom m := if m.Sender = "" then some (.ErrValidationFailed 1) else none
  ValidateBasicChangeAdmin m := if m.Sender = "" then some (.ErrValidationFailed 2) else none
  ValidateBasicUpdateModuleParams m :=
    if m.Authority = "" then some (.ErrValidationFailed 3) else none
  ValidateBasicMint m := if m.Sender = "" then some (.ErrValidationFailed 4) else none
  ValidateBasicBurn m := if m.Sender = "" then some (.ErrValidationFailed 5) else none
  ValidateBasicSetDenomMetadata m :=
    if m.Sender = "" then some (.ErrValidationFailed 6) else none
  ValidateBasicSudoSetDenomMetadata m :=
    if m.Sender = "" then some (.ErrValidationFailed 7) else none
  ParamsValidate p := if p.DenomCreationGasConsume < 1000 then none
    else some (.ErrValidationFailed 8)
  AccAddressFromBech32 str := if str = "" then .error .ErrInvalidAddress else .ok { raw := str }

/-- A keeper whose governance authority is `gov`, whose ledger blocks the
address `feecollector`, and whose sudo check admits `root` only. -/
def sampleKeeper : Keeper where
  authority := "gov"
  BlockedAddr addr := decide (addr.raw = "feecollector")
  GetModuleAddress moduleName := { raw := moduleName }
  CheckPermissions addr := if addr.raw = "root" then none else some .ErrSudoUnauthorized

/-- A state in which `factory/alice/gold` has admin `alice`, the foreign key
`uatom` has admin `alice` too, `alice` holds 50 gold of a supply of 50, and
nothing else is recorded. -/
def sampleCtx : Ctx where
  denomAdmins d :=
    if d = "factory/alice/gold" then some { Admin := "alice" }
    else if d = "uatom" then some { Admin := "alice" }
    else none
  ModuleParams := { DenomCreationGasConsume := 10 }
  bank :=
    { balances := fun a d => if a.raw = "alice" ∧ d = "factory/alice/gold" then 50 else 0
      supply := fun d => if d = "factory/alice/gold" then 50 else 0
      denomMetaData := fun _ => none }
  events := []

/-- A keeper like the sample one whose configured governance authority is the
empty string, which the sample validation policy does not accept as an
authority: no address was put in at construction. -/
def unsetAuthorityKeeper : Keeper where
  authority := ""
  BlockedAddr addr := decide (addr.raw = "feecollector")
  GetModuleAddress moduleName := { raw := moduleName }
  CheckPermissions addr := if addr.raw = "root" then none else some .ErrSudoUnauthorized

/-- A state with an empty authority store and an empty ledger. -/
def genesisCtx : Ctx where
  denomAdmins _ := none
  ModuleParams := { DenomCreationGasConsume := 10 }
  bank := { balances := fun _ _ => 0, supply := fun _ => 0, denomMetaData := fun _ => none }
  events := []

/-! ## Admin transfer -/

/-- C1 (as stated, refuted): in the sample state `factory/alice/gold` has
admin `alice`; a structurally valid `ChangeAdmin` for it sent by `bob` fails
with `ErrInvalidSender`, which is not the error `ErrUnauthorized`. -/
theorem ChangeAdmin_not_admin_error_is_not_Unauthorized :
    sampleCtx.denomAdmins "factory/alice/gold" = some { Admin := "alice" } ∧
    sampleTypes.ValidateBasicChangeAdmin
      { Sender := "bob", Denom := "factory/alice/gold", NewAdmin := "bob" } = none ∧
    "bob" ≠ "alice" ∧
    (ChangeAdmin sampleTypes sampleKeeper sampleCtx
      (some { Sender := "bob", Denom := "factory/alice/gold", NewAdmin := "bob" })).2
      = .error Err.ErrInvalidSender ∧
    (ChangeAdmin sampleTypes sampleKeeper sampleCtx
      (some { Sender := "bob", Denom := "factory/alice/gold", NewAdmin := "bob" })).2
      ≠ .error Err.ErrUnauthorized := by
  refine ⟨by decide, by decide, by decide, by decide, by decide⟩

/-- C1 (amended): when denomination `d` has recorded admin `A`, a structurally
valid `ChangeAdmin` for `d` whose sender is not `A` fails with
`ErrInvalidSender`, the state at exit is the state at entry, and the admin
recorded for `d` is still `A`. -/
theorem ChangeAdmin_not_admin (t : Types) (k : Keeper) (ctx : Ctx) (txMsg : MsgChangeAdmin)
    (A : String) (hvalid : t.ValidateBasicChangeAdmin txMsg = none)
    (hadmin : ctx.denomAdmins txMsg.Denom = some { Admin := A })
    (hsender : txMsg.Sender ≠ A) :
    ChangeAdmin t k ctx (some txMsg) = (ctx, .error Err.ErrInvalidSender) ∧
    GetAdmin (ChangeAdmin t k ctx (some txMsg)).1 txMsg.Denom = .ok A := by
  have hrun : ChangeAdmin t k ctx (some txMsg) = (ctx, .error Err.ErrInvalidSender) := by
    simp [ChangeAdmin, hvalid, GetDenomAuthorityMetadata, hadmin, hsender]
  refine ⟨hrun, ?_⟩
  rw [hrun]
  simp [GetAdmin, GetDenomAuthorityMetadata, hadmin]

/-- The amended C1 at the sample state: `bob` may not change the admin of
`factory/alice/gold`. -/
theorem ChangeAdmin_not_admin_witness :
    ChangeAdmin sampleTypes sampleKeeper sampleCtx
        (some { Sender := "bob", Denom := "factory/alice/gold", NewAdmin := "bob" })
      = (sampleCtx, .error Err.ErrInvalidSender) ∧
    GetAdmin (ChangeAdmin sampleTypes sampleKeeper sampleCtx
        (some { Sender := "bob", Denom := "factory/alice/gold", NewAdmin := "bob" })).1
      "factory/alice/gold" = .ok "alice" :=
  ChangeAdmin_not_admin sampleTypes sampleKeeper sampleCtx
    { Sender := "bob", Denom := "factory/alice/gold", NewAdmin := "bob" } "alice"
    (by decide) (by decide) (by decide)

/-- C2: when denomination `d` has recorded admin `A`, a structurally valid
`ChangeAdmin` for `d` sent by `A` with new admin `N` succeeds and the admin
lookup for `d` then returns `N`; afterwards a structurally valid `Mint` for
`d` sent by `A` with `A ≠ N` fails with `ErrUnauthorized`, and one sent by `N`
passes the authorization check, that is, runs `mint` for the recipient. -/
theorem ChangeAdmin_by_admin (t : Types) (k : Keeper) (ctx : Ctx) (txMsg : MsgChangeAdmin)
    (A : String) (hvalid : t.ValidateBasicChangeAdmin txMsg = none)
    (hadmin : ctx.denomAdmins txMsg.Denom = some { Admin := A })
    (hsender : txMsg.Sender = A) :
    (ChangeAdmin t k ctx (some txMsg)).2 = .ok {} ∧
    GetAdmin (ChangeAdmin t k ctx (some txMsg)).1 txMsg.Denom = .ok txMsg.NewAdmin ∧
    (∀ m : MsgMint, t.ValidateBasicMint m = none → m.Coin.Denom = txMsg.Denom →
      m.Sender = A → A ≠ txMsg.NewAdmin →
      Mint t k (ChangeAdmin t k ctx (some txMsg)).1 (some m)
        = ((ChangeAdmin t k ctx (some txMsg)).1, .error Err.ErrUnauthorized)) ∧
    (∀ m : MsgMint, t.ValidateBasicMint m = none → m.Coin.Denom = txMsg.Denom →
      m.Sender = txMsg.NewAdmin →
      Mint t k (ChangeAdmin t k ctx (some txMsg)).1 (some m)
        = match mint t k (ChangeAdmin t k ctx (some txMsg)).1 m.Coin
            (if m.MintTo = "" then m.Sender else m.MintTo) m.Sender with
          | (ctx1, some err) => (ctx1, .error err)
          | (ctx1, none) =>
            (EmitTypedEvent ctx1
              (.EventMint m.Coin (if m.MintTo = "" then m.Sender else m.MintTo) m.Sender),
              .ok { MintTo := if m.MintTo = "" then m.Sender else m.MintTo })) := by
  have hrun : ChangeAdmin t k ctx (some txMsg) =
      (EmitTypedEvent (denomAdminsInsert ctx txMsg.Denom { Admin := txMsg.NewAdmin })
        (.EventChangeAdmin txMsg.Denom txMsg.Sender txMsg.NewAdmin), .ok {}) := by
    simp [ChangeAdmin, hvalid, GetDenomAuthorityMetadata, hadmin, hsender]
  have hget : GetAdmin (ChangeAdmin t k ctx (some txMsg)).1 txMsg.Denom
      = .ok txMsg.NewAdmin := by
    rw [hrun]
    simp [GetAdmin, GetDenomAuthorityMetadata, EmitTypedEvent, denomAdminsInsert]
  refine ⟨by rw [hrun], hget, ?_, ?_⟩
  · intro m hm hd hs hne
    rw [← hd] at hget
    have hne2 : m.Sender ≠ txMsg.NewAdmin := by rw [hs]; exact hne
    simp [Mint, hm, hget, hne2]
  · intro m hm hd hs
    rw [← hd] at hget
    by_cases hto : m.MintTo = ""
    · simp [Mint, hm, hget, hs, hto]
    · simp [Mint, hm, hget, hs, hto]

/-- C2 at the sample state: `alice` hands `factory/alice/gold` over to `bob`. -/
theorem ChangeAdmin_by_admin_witness :
    (ChangeAdmin sampleTypes sampleKeeper sampleCtx
      (some { Sender := "alice", Denom := "factory/alice/gold", NewAdmin := "bob" })).2
      = .ok {} ∧
    GetAdmin (ChangeAdmin sampleTypes sampleKeeper sampleCtx
      (some { Sender := "alice", Denom := "factory/alice/gold", NewAdmin := "bob" })).1
      "factory/alice/gold" = .ok "bob" :=
  have h := ChangeAdmin_by_admin sampleTypes sampleKeeper sampleCtx
    { Sender := "alice", Denom := "factory/alice/gold", NewAdmin := "bob" } "alice"
    (by decide) (by decide) (by decide)
  ⟨h.1, h.2.1⟩

/-! ## Denomination creation -/

/-- C3: for a creator and subdenom that pass structural validation and whose
canonical string `factory/<creator>/<subdenom>` has no authority record,
`CreateDenom` succeeds and returns that string as `NewTokenDenom`, the
authority lookup for it then returns the creator as admin, and a second
`CreateDenom` with the same pair fails with `ErrAlreadyExists` and leaves the
state, the stored record included, as it was. -/
theorem CreateDenom_fresh (t : Types) (k : Keeper) (ctx : Ctx) (txMsg : MsgCreateDenom)
    (hvalid : t.ValidateBasicCreateDenom txMsg = none)
    (hfresh : ctx.denomAdmins ("factory/" ++ txMsg.Sender ++ "/" ++ txMsg.Subdenom) = none) :
    (CreateDenom t k ctx (some txMsg)).2
      = .ok { NewTokenDenom := "factory/" ++ txMsg.Sender ++ "/" ++ txMsg.Subdenom } ∧
    GetDenomAuthorityMetadata (CreateDenom t k ctx (some txMsg)).1
      ("factory/" ++ txMsg.Sender ++ "/" ++ txMsg.Subdenom) = .ok { Admin := txMsg.Sender } ∧
    CreateDenom t k (CreateDenom t k ctx (some txMsg)).1 (some txMsg)
      = ((CreateDenom t k ctx (some txMsg)).1, .error Err.ErrAlreadyExists) := by
  have hcanon : TFDenom.Denom { Creator := txMsg.Sender, Subdenom := txMsg.Subdenom }
      = "factory/" ++ txMsg.Sender ++ "/" ++ txMsg.Subdenom := by
    have h0 : FactoryPrefix ++ "/" = "factory/" := by decide
    simp only [TFDenom.Denom, h0]
  have hrun : CreateDenom t k ctx (some txMsg) =
      (denomAdminsInsert ctx ("factory/" ++ txMsg.Sender ++ "/" ++ txMsg.Subdenom)
        { Admin := txMsg.Sender },
       .ok { NewTokenDenom := "factory/" ++ txMsg.Sender ++ "/" ++ txMsg.Subdenom }) := by
    simp [CreateDenom, hvalid, InsertDenom, hcanon, hfresh]
  rw [hrun]
  refine ⟨rfl, ?_, ?_⟩
  · simp [GetDenomAuthorityMetadata, denomAdminsInsert]
  · simp [CreateDenom, hvalid, InsertDenom, hcanon, denomAdminsInsert]

/-- C3 at the sample state: `bob` creates `factory/bob/silver`. -/
theorem CreateDenom_fresh_witness :
    (CreateDenom sampleTypes sampleKeeper sampleCtx
      (some { Sender := "bob", Subdenom := "silver" })).2
      = .ok { NewTokenDenom := "factory/bob/silver" } ∧
    GetDenomAuthorityMetadata (CreateDenom sampleTypes sampleKeeper sampleCtx
      (some { Sender := "bob", Subdenom := "silver" })).1 "factory/bob/silver"
      = .ok { Admin := "bob" } ∧
    CreateDenom sampleTypes sampleKeeper (CreateDenom sampleTypes sampleKeeper sampleCtx
      (some { Sender := "bob", Subdenom := "silver" })).1
      (some { Sender := "bob", Subdenom := "silver" })
      = ((CreateDenom sampleTypes sampleKeeper sampleCtx
          (some { Sender := "bob", Subdenom := "silver" })).1, .error Err.ErrAlreadyExists) :=
  CreateDenom_fresh sampleTypes sampleKeeper sampleCtx
    { Sender := "bob", Subdenom := "silver" } (by decide) (by decide)

/-! ## Mint -/

/-- The helper `mint` succeeds for a namespaced coin and a recipient that
parses and is not blocked: the recipient gains the coin and the supply grows
by it, while the authority store, the parameters and the events stay. -/
theorem mint_succeeds (t : Types) (k : Keeper) (ctx : Ctx) (coin : Coin)
    (mintTo caller : String) (r : AccAddress)
    (hns : DenomStr.Validate coin.Denom = none)
    (hrecipient : t.AccAddressFromBech32 mintTo = .ok r)
    (hblocked : k.BlockedAddr r = false) :
    ∃ ctx1, mint t k ctx coin mintTo caller = (ctx1, none) ∧
      ctx1.bank.balances r coin.Denom = ctx.bank.balances r coin.Denom + coin.Amount ∧
      ctx1.bank.supply coin.Denom = ctx.bank.supply coin.Denom + coin.Amount := by
  by_cases hmod : r = k.GetModuleAddress ModuleName
  · subst hmod
    simp [mint, hns, NewCoins, MintCoins, hrecipient, hblocked,
      SendCoinsFromModuleToAccount, SendCoins, Bank.subUnlockedCoins, Bank.addCoins]
  · have hmod2 : ¬ k.GetModuleAddress ModuleName = r := fun h => hmod h.symm
    simp [mint, hns, NewCoins, MintCoins, hrecipient, hblocked,
      SendCoinsFromModuleToAccount, SendCoins, Bank.subUnlockedCoins, Bank.addCoins,
      hmod, hmod2]

/-- C4: for a denomination `d` inside the factory namespace with recorded
admin `A`, an amount `a` and a recipient that parses to an address `r` the
ledger does not block, a structurally valid `Mint` of `(d, a)` sent by `A`
succeeds, answers with the resolved recipient, and at exit `r` holds exactly
`a` more of `d` and the total supply of `d` is exactly `a` larger. -/
theorem Mint_by_admin (t : Types) (k : Keeper) (ctx : Ctx) (txMsg : MsgMint)
    (A : String) (r : AccAddress)
    (hvalid : t.ValidateBasicMint txMsg = none)
    (hns : DenomStr.Validate txMsg.Coin.Denom = none)
    (hadmin : ctx.denomAdmins txMsg.Coin.Denom = some { Admin := A })
    (hsender : txMsg.Sender = A)
    (hrecipient : t.AccAddressFromBech32
      (if txMsg.MintTo = "" then txMsg.Sender else txMsg.MintTo) = .ok r)
    (hblocked : k.BlockedAddr r = false) :
    (Mint t k ctx (some txMsg)).2
      = .ok { MintTo := if txMsg.MintTo = "" then txMsg.Sender else txMsg.MintTo } ∧
    (Mint t k ctx (some txMsg)).1.bank.balances r txMsg.Coin.Denom
      = ctx.bank.balances r txMsg.Coin.Denom + txMsg.Coin.Amount ∧
    (Mint t k ctx (some txMsg)).1.bank.supply txMsg.Coin.Denom
      = ctx.bank.supply txMsg.Coin.Denom + txMsg.Coin.Amount := by
  have hget : GetAdmin ctx txMsg.Coin.Denom = .ok txMsg.Sender := by
    simp [GetAdmin, GetDenomAuthorityMetadata, hadmin, hsender]
  obtain ⟨ctx1, hmint, hbal, hsup⟩ := mint_succeeds t k ctx txMsg.Coin
    (if txMsg.MintTo = "" then txMsg.Sender else txMsg.MintTo) txMsg.Sender r
    hns hrecipient hblocked
  by_cases hto : txMsg.MintTo = ""
  · simp only [hto, if_true] at hmint
    simp [Mint, hvalid, hget, hto, hmint, EmitTypedEvent, hbal, hsup]
  · simp only [hto, if_false] at hmint
    simp [Mint, hvalid, hget, hto, hmint, EmitTypedEvent, hbal, hsup]

/-- C4 at the sample state: `alice` mints 7 gold to `bob`, who held none. -/
theorem Mint_by_admin_witness :
    (Mint sampleTypes sampleKeeper sampleCtx
      (some { Sender := "alice", Coin := { Denom := "factory/alice/gold", Amount := 7 },
              MintTo := "bob" })).2 = .ok { MintTo := "bob" } ∧
    (Mint sampleTypes sampleKeeper sampleCtx
      (some { Sender := "alice", Coin := { Denom := "factory/alice/gold", Amount := 7 },
              MintTo := "bob" })).1.bank.balances { raw := "bob" } "factory/alice/gold"
      = 0 + 7 ∧
    (Mint sampleTypes sampleKeeper sampleCtx
      (some { Sender := "alice", Coin := { Denom := "factory/alice/gold", Amount := 7 },
              MintTo := "bob" })).1.bank.supply "factory/alice/gold" = 50 + 7 :=
  Mint_by_admin sampleTypes sampleKeeper sampleCtx
    { Sender := "alice", Coin := { Denom := "factory/alice/gold", Amount := 7 },
      MintTo := "bob" } "alice" { raw := "bob" }
    (by decide) (by decide) (by decide) (by decide) rfl (by decide)

/-- C5: a structurally valid `Mint` whose denomination has recorded admin `A`
and whose sender is not `A` fails with `ErrUnauthorized`, and the state at
exit is the state at entry: every balance and the total supply are as before,
no ledger call having been made. -/
theorem Mint_not_admin (t : Types) (k : Keeper) (ctx : Ctx) (txMsg : MsgMint) (A : String)
    (hvalid : t.ValidateBasicMint txMsg = none)
    (hadmin : ctx.denomAdmins txMsg.Coin.Denom = some { Admin := A })
    (hsender : txMsg.Sender ≠ A) :
    Mint t k ctx (some txMsg) = (ctx, .error Err.ErrUnauthorized) := by
  simp [Mint, hvalid, GetAdmin, GetDenomAuthorityMetadata, hadmin, hsender]

/-- C5 at the sample state: `bob` may not mint `factory/alice/gold`. -/
theorem Mint_not_admin_witness :
    Mint sampleTypes sampleKeeper sampleCtx
      (some { Sender := "bob", Coin := { Denom := "factory/alice/gold", Amount := 7 },
              MintTo := "bob" }) = (sampleCtx, .error Err.ErrUnauthorized) :=
  Mint_not_admin sampleTypes sampleKeeper sampleCtx
    { Sender := "bob", Coin := { Denom := "factory/alice/gold", Amount := 7 },
      MintTo := "bob" } "alice" (by decide) (by decide) (by decide)

/-- C6 (as stated, refuted): in the sample state `alice`, the admin of
`factory/alice/gold`, mints 7 of it to the blocked address `feecollector`.
The handler fails with `ErrBlockedAddress`, but at its exit the module
account holds 7 where it held 0 and the total supply is 57 where it was 50. -/
theorem Mint_blocked_changes_module_balance_and_supply :
    sampleKeeper.BlockedAddr { raw := "feecollector" } = true ∧
    (Mint sampleTypes sampleKeeper sampleCtx
      (some { Sender := "alice", Coin := { Denom := "factory/alice/gold", Amount := 7 },
              MintTo := "feecollector" })).2 = .error Err.ErrBlockedAddress ∧
    sampleCtx.bank.balances (sampleKeeper.GetModuleAddress ModuleName) "factory/alice/gold"
      = 0 ∧
    (Mint sampleTypes sampleKeeper sampleCtx
      (some { Sender := "alice", Coin := { Denom := "factory/alice/gold", Amount := 7 },
              MintTo := "feecollector" })).1.bank.balances
        (sampleKeeper.GetModuleAddress ModuleName) "factory/alice/gold" = 7 ∧
    sampleCtx.bank.supply "factory/alice/gold" = 50 ∧
    (Mint sampleTypes sampleKeeper sampleCtx
      (some { Sender := "alice", Coin := { Denom := "factory/alice/gold", Amount := 7 },
              MintTo := "feecollector" })).1.bank.supply "factory/alice/gold" = 57 := by
  refine ⟨by decide, by decide, by decide, by decide, by decide, by decide⟩

/-- C6 (amended): a structurally valid `Mint` of a namespaced coin sent by the
recorded admin whose destination parses to a blocked address fails with
`ErrBlockedAddress`.  At handler exit the ledger is the one `MintCoins` left:
the module account's balance and the total supply of the denomination are
larger by the amount, and no other account's balance has changed. -/
theorem Mint_blocked (t : Types) (k : Keeper) (ctx : Ctx) (txMsg : MsgMint)
    (A : String) (r : AccAddress)
    (hvalid : t.ValidateBasicMint txMsg = none)
    (hns : DenomStr.Validate txMsg.Coin.Denom = none)
    (hadmin : ctx.denomAdmins txMsg.Coin.Denom = some { Admin := A })
    (hsender : txMsg.Sender = A)
    (hrecipient : t.AccAddressFromBech32
      (if txMsg.MintTo = "" then txMsg.Sender else txMsg.MintTo) = .ok r)
    (hblocked : k.BlockedAddr r = true) :
    (Mint t k ctx (some txMsg)).2 = .error Err.ErrBlockedAddress ∧
    MintCoins k ctx.bank ModuleName txMsg.Coin = .ok (Mint t k ctx (some txMsg)).1.bank ∧
    (Mint t k ctx (some txMsg)).1.bank.balances (k.GetModuleAddress ModuleName)
        txMsg.Coin.Denom
      = ctx.bank.balances (k.GetModuleAddress ModuleName) txMsg.Coin.Denom
        + txMsg.Coin.Amount ∧
    (Mint t k ctx (some txMsg)).1.bank.supply txMsg.Coin.Denom
      = ctx.bank.supply txMsg.Coin.Denom + txMsg.Coin.Amount ∧
    (∀ a d, a ≠ k.GetModuleAddress ModuleName →
      (Mint t k ctx (some txMsg)).1.bank.balances a d = ctx.bank.balances a d) := by
  have hget : GetAdmin ctx txMsg.Coin.Denom = .ok txMsg.Sender := by
    simp [GetAdmin, GetDenomAuthorityMetadata, hadmin, hsender]
  by_cases hto : txMsg.MintTo = ""
  · simp only [hto, if_true] at hrecipient
    simp [Mint, hvalid, hget, hto, mint, hns, NewCoins, MintCoins, hrecipient, hblocked,
      Bank.addCoins]
    intro a d ha hd
    exact absurd hd ha
  · simp only [hto, if_false] at hrecipient
    simp [Mint, hvalid, hget, hto, mint, hns, NewCoins, MintCoins, hrecipient, hblocked,
      Bank.addCoins]
    intro a d ha hd
    exact absurd hd ha

/-- C6 (amended) at the sample state: the mint to `feecollector`. -/
theorem Mint_blocked_witness :
    (Mint sampleTypes sampleKeeper sampleCtx
      (some { Sender := "alice", Coin := { Denom := "factory/alice/gold", Amount := 7 },
              MintTo := "feecollector" })).2 = .error Err.ErrBlockedAddress :=
  (Mint_blocked sampleTypes sampleKeeper sampleCtx
    { Sender := "alice", Coin := { Denom := "factory/alice/gold", Amount := 7 },
      MintTo := "feecollector" } "alice" { raw := "feecollector" }
    (by decide) (by decide) (by decide) (by decide) rfl (by decide)).1

/-! ## Burn -/

/-- C7 (as stated, refuted): in the sample state the foreign key `uatom` has
recorded admin `alice`; her structurally valid `Burn` of `uatom` from the
blocked address `feecollector` fails at the namespace check, which `burn` runs
before it looks at the source, with `ErrInvalidNamespace` and not with
`ErrBlockedAddress`. -/
theorem Burn_blocked_foreign_denom_error_is_not_BlockedAddress :
    sampleCtx.denomAdmins "uatom" = some { Admin := "alice" } ∧
    sampleTypes.ValidateBasicBurn
      { Sender := "alice", Coin := { Denom := "uatom", Amount := 7 },
        BurnFrom := "feecollector" } = none ∧
    sampleKeeper.BlockedAddr { raw := "feecollector" } = true ∧
    (Burn sampleTypes sampleKeeper sampleCtx
      (some { Sender := "alice", Coin := { Denom := "uatom", Amount := 7 },
              BurnFrom := "feecollector" })).2 = .error Err.ErrInvalidNamespace ∧
    (Burn sampleTypes sampleKeeper sampleCtx
      (some { Sender := "alice", Coin := { Denom := "uatom", Amount := 7 },
              BurnFrom := "feecollector" })).2 ≠ .error Err.ErrBlockedAddress := by
  refine ⟨by decide, by decide, by decide, by decide, by decide⟩

/-- C7 (amended): a structurally valid `Burn` sent by the recorded admin whose
source (`BurnFrom`, or the sender when `BurnFrom` is empty) parses to an
address the ledger blocks fails, and the state at exit is the state at entry:
every balance and the total supply are as before.  The error is
`ErrBlockedAddress` when the coin's denomination passes namespace validation,
and `ErrInvalidNamespace`, the error of that validation, when it does not. -/
theorem Burn_blocked (t : Types) (k : Keeper) (ctx : Ctx) (txMsg : MsgBurn)
    (A : String) (src : AccAddress)
    (hvalid : t.ValidateBasicBurn txMsg = none)
    (hadmin : ctx.denomAdmins txMsg.Coin.Denom = some { Admin := A })
    (hsender : txMsg.Sender = A)
    (hsource : t.AccAddressFromBech32
      (if txMsg.BurnFrom = "" then txMsg.Sender else txMsg.BurnFrom) = .ok src)
    (hblocked : k.BlockedAddr src = true) :
    (∃ err, Burn t k ctx (some txMsg) = (ctx, .error err)) ∧
    (DenomStr.Validate txMsg.Coin.Denom = none →
      Burn t k ctx (some txMsg) = (ctx, .error Err.ErrBlockedAddress)) ∧
    (DenomStr.Validate txMsg.Coin.Denom ≠ none →
      Burn t k ctx (some txMsg) = (ctx, .error Err.ErrInvalidNamespace)) := by
  have hget : GetAdmin ctx txMsg.Coin.Denom = .ok txMsg.Sender := by
    simp [GetAdmin, GetDenomAuthorityMetadata, hadmin, hsender]
  have hgood : DenomStr.Validate txMsg.Coin.Denom = none →
      Burn t k ctx (some txMsg) = (ctx, .error Err.ErrBlockedAddress) := by
    intro hns
    by_cases hfrom : txMsg.BurnFrom = ""
    · simp only [hfrom, if_true] at hsource
      simp [Burn, hvalid, hget, hfrom, burn, hns, hsource, hblocked]
    · simp only [hfrom, if_false] at hsource
      simp [Burn, hvalid, hget, hfrom, burn, hns, hsource, hblocked]
  have hbad : DenomStr.Validate txMsg.Coin.Denom ≠ none →
      Burn t k ctx (some txMsg) = (ctx, .error Err.ErrInvalidNamespace) := by
    intro hns
    have hv : DenomStr.Validate txMsg.Coin.Denom = some Err.ErrInvalidNamespace := by
      unfold DenomStr.Validate at hns ⊢
      split
      · rename_i h
        simp [h] at hns
      · rfl
    by_cases hfrom : txMsg.BurnFrom = ""
    · simp [Burn, hvalid, hget, hfrom, burn, hv]
    · simp [Burn, hvalid, hget, hfrom, burn, hv]
  refine ⟨?_, hgood, hbad⟩
  cases hv : DenomStr.Validate txMsg.Coin.Denom with
  | none => exact ⟨_, hgood hv⟩
  | some e => exact ⟨_, hbad (by rw [hv]; exact Option.some_ne_none e)⟩

/-- C7 (amended) at the sample state: `alice` may not burn gold from
`feecollector`. -/
theorem Burn_blocked_witness :
    Burn sampleTypes sampleKeeper sampleCtx
      (some { Sender := "alice", Coin := { Denom := "factory/alice/gold", Amount := 7 },
              BurnFrom := "feecollector" }) = (sampleCtx, .error Err.ErrBlockedAddress) :=
  (Burn_blocked sampleTypes sampleKeeper sampleCtx
    { Sender := "alice", Coin := { Denom := "factory/alice/gold", Amount := 7 },
      BurnFrom := "feecollector" } "alice" { raw := "feecollector" }
    (by decide) (by decide) (by decide) rfl (by decide)).2.1 (by decide)

/-- The helper `burn` succeeds for a namespaced coin and a source that parses,
is not blocked and holds the coin: the source loses the coin and the supply
shrinks by it. -/
theorem burn_succeeds (t : Types) (k : Keeper) (ctx : Ctx) (coin : Coin)
    (burnFrom caller : String) (src : AccAddress)
    (hns : DenomStr.Validate coin.Denom = none)
    (hsource : t.AccAddressFromBech32 burnFrom = .ok src)
    (hblocked : k.BlockedAddr src = false)
    (hholds : coin.Amount ≤ ctx.bank.balances src coin.Denom)
    (hledger : ctx.bank.balances src coin.Denom ≤ ctx.bank.supply coin.Denom) :
    ∃ ctx1, burn t k ctx coin burnFrom caller = (ctx1, none) ∧
      ctx1.bank.balances src coin.Denom + coin.Amount = ctx.bank.balances src coin.Denom ∧
      ctx1.bank.supply coin.Denom + coin.Amount = ctx.bank.supply coin.Denom := by
  have hnlt : ¬ ctx.bank.balances src coin.Denom < coin.Amount := Nat.not_lt.mpr hholds
  have hsupply : coin.Amount ≤ ctx.bank.supply coin.Denom := Nat.le_trans hholds hledger
  by_cases hmod : src = k.GetModuleAddress ModuleName
  · subst hmod
    simp [burn, hns, NewCoins, BurnCoins, hsource, hblocked, SendCoinsFromAccountToModule,
      SendCoins, Bank.subUnlockedCoins, Bank.addCoins, hnlt, Nat.sub_add_cancel hholds,
      Nat.sub_add_cancel hsupply]
  · have hmod2 : ¬ k.GetModuleAddress ModuleName = src := fun h => hmod h.symm
    simp [burn, hns, NewCoins, BurnCoins, hsource, hblocked, SendCoinsFromAccountToModule,
      SendCoins, Bank.subUnlockedCoins, Bank.addCoins, hnlt, hmod, hmod2,
      Nat.sub_add_cancel hholds, Nat.sub_add_cancel hsupply]

/-- C8: for a denomination `d` inside the factory namespace with recorded
admin `A` and a source that parses to an address `s` the ledger does not
block and that holds at least `a` of `d`, a structurally valid `Burn` of
`(d, a)` sent by `A` succeeds, and at exit `s` holds exactly `a` less of `d`
and the total supply of `d` is exactly `a` smaller.  The ledger is taken in a
consistent state: an account holds no more of `d` than the total supply. -/
theorem Burn_by_admin (t : Types) (k : Keeper) (ctx : Ctx) (txMsg : MsgBurn)
    (A : String) (src : AccAddress)
    (hvalid : t.ValidateBasicBurn txMsg = none)
    (hns : DenomStr.Validate txMsg.Coin.Denom = none)
    (hadmin : ctx.denomAdmins txMsg.Coin.Denom = some { Admin := A })
    (hsender : txMsg.Sender = A)
    (hsource : t.AccAddressFromBech32
      (if txMsg.BurnFrom = "" then txMsg.Sender else txMsg.BurnFrom) = .ok src)
    (hblocked : k.BlockedAddr src = false)
    (hholds : txMsg.Coin.Amount ≤ ctx.bank.balances src txMsg.Coin.Denom)
    (hledger : ctx.bank.balances src txMsg.Coin.Denom ≤ ctx.bank.supply txMsg.Coin.Denom) :
    (Burn t k ctx (some txMsg)).2 = .ok {} ∧
    (Burn t k ctx (some txMsg)).1.bank.balances src txMsg.Coin.Denom + txMsg.Coin.Amount
      = ctx.bank.balances src txMsg.Coin.Denom ∧
    (Burn t k ctx (some txMsg)).1.bank.supply txMsg.Coin.Denom + txMsg.Coin.Amount
      = ctx.bank.supply txMsg.Coin.Denom := by
  have hget : GetAdmin ctx txMsg.Coin.Denom = .ok txMsg.Sender := by
    simp [GetAdmin, GetDenomAuthorityMetadata, hadmin, hsender]
  obtain ⟨ctx1, hburn, hbal, hsup⟩ := burn_succeeds t k ctx txMsg.Coin
    (if txMsg.BurnFrom = "" then txMsg.Sender else txMsg.BurnFrom) txMsg.Sender src
    hns hsource hblocked hholds hledger
  by_cases hfrom : txMsg.BurnFrom = ""
  · simp only [hfrom, if_true] at hburn
    simp [Burn, hvalid, hget, hfrom, hburn, EmitTypedEvent, hbal, hsup]
  · simp only [hfrom, if_false] at hburn
    simp [Burn, hvalid, hget, hfrom, hburn, EmitTypedEvent, hbal, hsup]

/-- C8 at the sample state: `alice` burns 20 of her 50 gold. -/
theorem Burn_by_admin_witness :
    (Burn sampleTypes sampleKeeper sampleCtx
      (some { Sender := "alice", Coin := { Denom := "factory/alice/gold", Amount := 20 },
              BurnFrom := "" })).2 = .ok {} ∧
    (Burn sampleTypes sampleKeeper sampleCtx
      (some { Sender := "alice", Coin := { Denom := "factory/alice/gold", Amount := 20 },
              BurnFrom := "" })).1.bank.balances { raw := "alice" } "factory/alice/gold" + 20
      = 50 ∧
    (Burn sampleTypes sampleKeeper sampleCtx
      (some { Sender := "alice", Coin := { Denom := "factory/alice/gold", Amount := 20 },
              BurnFrom := "" })).1.bank.supply "factory/alice/gold" + 20 = 50 :=
  Burn_by_admin sampleTypes sampleKeeper sampleCtx
    { Sender := "alice", Coin := { Denom := "factory/alice/gold", Amount := 20 },
      BurnFrom := "" } "alice" { raw := "alice" }
    (by decide) (by decide) (by decide) (by decide) rfl (by decide) (by decide) (by decide)

/-- C9: a structurally valid `Burn` of `(d, a)` sent by the recorded admin of
`d` from a source that holds less than `a` of `d` fails, and the state at exit
is the state at entry: every balance and the total supply are as before. -/
theorem Burn_insufficient (t : Types) (k : Keeper) (ctx : Ctx) (txMsg : MsgBurn)
    (A : String) (src : AccAddress)
    (hvalid : t.ValidateBasicBurn txMsg = none)
    (hadmin : ctx.denomAdmins txMsg.Coin.Denom = some { Admin := A })
    (hsender : txMsg.Sender = A)
    (hsource : t.AccAddressFromBech32
      (if txMsg.BurnFrom = "" then txMsg.Sender else txMsg.BurnFrom) = .ok src)
    (hlow : ctx.bank.balances src txMsg.Coin.Denom < txMsg.Coin.Amount) :
    ∃ err, Burn t k ctx (some txMsg) = (ctx, .error err) := by
  have hget : GetAdmin ctx txMsg.Coin.Denom = .ok txMsg.Sender := by
    simp [GetAdmin, GetDenomAuthorityMetadata, hadmin, hsender]
  have hburn : ∀ burnFrom, t.AccAddressFromBech32 burnFrom = .ok src →
      ∃ err, burn t k ctx txMsg.Coin burnFrom txMsg.Sender = (ctx, some err) := by
    intro burnFrom hparse
    cases hv : DenomStr.Validate txMsg.Coin.Denom with
    | some e => exact ⟨e, by simp [burn, hv]⟩
    | none =>
      cases hb : k.BlockedAddr src with
      | true => exact ⟨Err.ErrBlockedAddress, by simp [burn, hv, hparse, hb]⟩
      | false =>
        exact ⟨Err.ErrInsufficientFunds, by
          simp [burn, hv, hparse, hb, NewCoins, SendCoinsFromAccountToModule, SendCoins,
            Bank.subUnlockedCoins, hlow]⟩
  by_cases hfrom : txMsg.BurnFrom = ""
  · simp only [hfrom, if_true] at hsource
    obtain ⟨err, herr⟩ := hburn txMsg.Sender hsource
    exact ⟨err, by simp [Burn, hvalid, hget, hfrom, herr]⟩
  · simp only [hfrom, if_false] at hsource
    obtain ⟨err, herr⟩ := hburn txMsg.BurnFrom hsource
    exact ⟨err, by simp [Burn, hvalid, hget, hfrom, herr]⟩

/-- C9 at the sample state: `alice` cannot burn 80 of her 50 gold. -/
theorem Burn_insufficient_witness :
    ∃ err, Burn sampleTypes sampleKeeper sampleCtx
      (some { Sender := "alice", Coin := { Denom := "factory/alice/gold", Amount := 80 },
              BurnFrom := "alice" }) = (sampleCtx, .error err) :=
  Burn_insufficient sampleTypes sampleKeeper sampleCtx
    { Sender := "alice", Coin := { Denom := "factory/alice/gold", Amount := 80 },
      BurnFrom := "alice" } "alice" { raw := "alice" }
    (by decide) (by decide) (by decide) rfl (by decide)

/-! ## Module parameters -/

/-- C10 (as stated, refuted): with the sample keeper, whose authority is
`gov`, the non-nil command with the empty authority differs from `gov` and yet
fails with the error of structural validation, which runs before the
authority check, and not with `ErrInvalidSigner`. -/
theorem UpdateModuleParams_invalid_command_error_is_not_InvalidSigner :
    ({ Authority := "", Params := { DenomCreationGasConsume := 5 } }
      : MsgUpdateModuleParams).Authority ≠ sampleKeeper.authority ∧
    (UpdateModuleParams sampleTypes sampleKeeper sampleCtx
      (some { Authority := "", Params := { DenomCreationGasConsume := 5 } })).2
      = .error (Err.ErrValidationFailed 3) ∧
    (UpdateModuleParams sampleTypes sampleKeeper sampleCtx
      (some { Authority := "", Params := { DenomCreationGasConsume := 5 } })).2
      ≠ .error Err.ErrInvalidSigner := by
  refine ⟨by decide, by decide, by decide⟩

/-- C10 (amended): a non-nil `UpdateModuleParams` command whose authority
differs from the keeper's configured authority fails and leaves the state,
the stored parameters included, as it was; when the command passes structural
validation the error is `ErrInvalidSigner`, and when it does not the error is
the one structural validation returned. -/
theorem UpdateModuleParams_wrong_authority (t : Types) (k : Keeper) (ctx : Ctx)
    (txMsg : MsgUpdateModuleParams) (hauthority : txMsg.Authority ≠ k.authority) :
    (∃ err, UpdateModuleParams t k ctx (some txMsg) = (ctx, .error err)) ∧
    (UpdateModuleParams t k ctx (some txMsg)).1.ModuleParams = ctx.ModuleParams ∧
    (t.ValidateBasicUpdateModuleParams txMsg = none →
      UpdateModuleParams t k ctx (some txMsg) = (ctx, .error Err.ErrInvalidSigner)) ∧
    (∀ e, t.ValidateBasicUpdateModuleParams txMsg = some e →
      UpdateModuleParams t k ctx (some txMsg) = (ctx, .error e)) := by
  have hne : k.authority ≠ txMsg.Authority := fun h => hauthority h.symm
  cases hv : t.ValidateBasicUpdateModuleParams txMsg with
  | some e => simp [UpdateModuleParams, hv]
  | none => simp [UpdateModuleParams, hv, hne]

/-- C10 (amended) at the sample keeper: `mallory` is not the authority, and
the empty authority does not pass structural validation. -/
theorem UpdateModuleParams_wrong_authority_witness :
    UpdateModuleParams sampleTypes sampleKeeper sampleCtx
      (some { Authority := "mallory", Params := { DenomCreationGasConsume := 5 } })
      = (sampleCtx, .error Err.ErrInvalidSigner) ∧
    UpdateModuleParams sampleTypes sampleKeeper sampleCtx
      (some { Authority := "", Params := { DenomCreationGasConsume := 5 } })
      = (sampleCtx, .error (Err.ErrValidationFailed 3)) :=
  ⟨(UpdateModuleParams_wrong_authority sampleTypes sampleKeeper sampleCtx
      { Authority := "mallory", Params := { DenomCreationGasConsume := 5 } }
      (by decide)).2.2.1 (by decide),
   (UpdateModuleParams_wrong_authority sampleTypes sampleKeeper sampleCtx
      { Authority := "", Params := { DenomCreationGasConsume := 5 } }
      (by decide)).2.2.2 (Err.ErrValidationFailed 3) (by decide)⟩

/-! ## Shared lemmas on `mint` and `burn` -/

/-- The helper `mint` touches the ledger's balances and supply only, whatever
its result. -/
theorem mint_frame (t : Types) (k : Keeper) (ctx : Ctx) (coin : Coin)
    (mintTo caller : String) :
    (mint t k ctx coin mintTo caller).1.denomAdmins = ctx.denomAdmins ∧
    (mint t k ctx coin mintTo caller).1.ModuleParams = ctx.ModuleParams ∧
    (mint t k ctx coin mintTo caller).1.events = ctx.events := by
  unfold mint
  split
  · exact ⟨rfl, rfl, rfl⟩
  · dsimp only
    split
    · exact ⟨rfl, rfl, rfl⟩
    · split
      · exact ⟨rfl, rfl, rfl⟩
      · split
        · exact ⟨rfl, rfl, rfl⟩
        · split
          · exact ⟨rfl, rfl, rfl⟩
          · exact ⟨rfl, rfl, rfl⟩

/-- The exit state of a `mint` that passes its three checks: the recipient is
credited, the supply grows, and the module account nets to zero. -/
theorem mint_run (t : Types) (k : Keeper) (ctx : Ctx) (coin : Coin)
    (mintTo caller : String) (r : AccAddress)
    (hns : DenomStr.Validate coin.Denom = none)
    (hrecipient : t.AccAddressFromBech32 mintTo = .ok r)
    (hblocked : k.BlockedAddr r = false) :
    (mint t k ctx coin mintTo caller).2 = none ∧
    (∀ a d, (mint t k ctx coin mintTo caller).1.bank.balances a d
      = if a = r ∧ d = coin.Denom then ctx.bank.balances a d + coin.Amount
        else ctx.bank.balances a d) ∧
    (∀ d, (mint t k ctx coin mintTo caller).1.bank.supply d
      = if d = coin.Denom then ctx.bank.supply d + coin.Amount else ctx.bank.supply d) := by
  simp only [mint, hns, NewCoins, MintCoins, hrecipient, hblocked,
    SendCoinsFromModuleToAccount, SendCoins, Bank.subUnlockedCoins, Bank.addCoins]
  simp only [and_self, if_true, Nat.not_lt.mpr (Nat.le_add_left _ _), if_false, Bool.false_eq_true]
  refine ⟨trivial, ?_, ?_⟩
  · intro a d
    by_cases h2 : d = coin.Denom
    · by_cases h3 : a = r
      · subst h3
        by_cases h1 : a = k.GetModuleAddress ModuleName <;> simp [h1, h2]
      · by_cases h1 : a = k.GetModuleAddress ModuleName <;> simp [h1, h2, h3]
    · simp [h2]
  · intro d
    trivial


/-- A `mint` without error has passed its three checks. -/
theorem mint_ok_inv (t : Types) (k : Keeper) (ctx : Ctx) (coin : Coin)
    (mintTo caller : String) (h : (mint t k ctx coin mintTo caller).2 = none) :
    DenomStr.Validate coin.Denom = none ∧
    ∃ r, t.AccAddressFromBech32 mintTo = .ok r ∧ k.BlockedAddr r = false := by
  cases hv : DenomStr.Validate coin.Denom with
  | some e => simp [mint, hv] at h
  | none =>
    cases hp : t.AccAddressFromBech32 mintTo with
    | error e => simp [mint, hv, MintCoins, hp] at h
    | ok r =>
      cases hb : k.BlockedAddr r with
      | true => simp [mint, hv, MintCoins, hp, hb] at h
      | false => exact ⟨rfl, r, rfl, hb⟩

/-- The helper `burn` touches the ledger's balances and supply only, whatever
its result. -/
theorem burn_frame (t : Types) (k : Keeper) (ctx : Ctx) (coin : Coin)
    (burnFrom caller : String) :
    (burn t k ctx coin burnFrom caller).1.denomAdmins = ctx.denomAdmins ∧
    (burn t k ctx coin burnFrom caller).1.ModuleParams = ctx.ModuleParams ∧
    (burn t k ctx coin burnFrom caller).1.events = ctx.events := by
  unfold burn
  split
  · exact ⟨rfl, rfl, rfl⟩
  · split
    · exact ⟨rfl, rfl, rfl⟩
    · split
      · exact ⟨rfl, rfl, rfl⟩
      · dsimp only
        split
        · exact ⟨rfl, rfl, rfl⟩
        · split
          · exact ⟨rfl, rfl, rfl⟩
          · exact ⟨rfl, rfl, rfl⟩

/-- The exit state of a `burn` that passes its checks from a source holding
the coin: the source is debited, the supply shrinks, and the module account
nets to zero. -/
theorem burn_run (t : Types) (k : Keeper) (ctx : Ctx) (coin : Coin)
    (burnFrom caller : String) (src : AccAddress)
    (hns : DenomStr.Validate coin.Denom = none)
    (hsource : t.AccAddressFromBech32 burnFrom = .ok src)
    (hblocked : k.BlockedAddr src = false)
    (hholds : coin.Amount ≤ ctx.bank.balances src coin.Denom) :
    (burn t k ctx coin burnFrom caller).2 = none ∧
    (∀ a d, (burn t k ctx coin burnFrom caller).1.bank.balances a d
      = if a = src ∧ d = coin.Denom then ctx.bank.balances a d - coin.Amount
        else ctx.bank.balances a d) ∧
    (∀ d, (burn t k ctx coin burnFrom caller).1.bank.supply d
      = if d = coin.Denom then ctx.bank.supply d - coin.Amount else ctx.bank.supply d) := by
  have hnlt : ¬ ctx.bank.balances src coin.Denom < coin.Amount := Nat.not_lt.mpr hholds
  by_cases hmod : src = k.GetModuleAddress ModuleName
  · subst hmod
    simp only [burn, hns, NewCoins, BurnCoins, hsource, hblocked, SendCoinsFromAccountToModule,
      SendCoins, Bank.subUnlockedCoins, Bank.addCoins, hnlt, if_false, and_self, if_true,
      Bool.false_eq_true, Nat.sub_add_cancel hholds]
    refine ⟨trivial, ?_, ?_⟩
    · intro a d
      by_cases h2 : d = coin.Denom
      · by_cases h1 : a = k.GetModuleAddress ModuleName
        · subst h1; simp [h2, Nat.sub_add_cancel hholds]
        · simp [h1, h2]
      · simp [h2]
    · intro d; trivial
  · have hmod2 : ¬ k.GetModuleAddress ModuleName = src := fun h => hmod h.symm
    simp only [burn, hns, NewCoins, BurnCoins, hsource, hblocked, SendCoinsFromAccountToModule,
      SendCoins, Bank.subUnlockedCoins, Bank.addCoins, hnlt, if_false, and_self, if_true,
      Bool.false_eq_true, hmod2, false_and, Nat.not_lt.mpr (Nat.le_add_left _ _)]
    refine ⟨trivial, ?_, ?_⟩
    · intro a d
      by_cases h2 : d = coin.Denom
      · by_cases h3 : a = src
        · subst h3; simp [h2, hmod]
        · by_cases h1 : a = k.GetModuleAddress ModuleName
          · subst h1; simp [h2, hmod2]
          · simp [h1, h2, h3]
      · simp [h2]
    · intro d; trivial


/-- A `burn` without error has passed its checks and its source held the
coin. -/
theorem burn_ok_inv (t : Types) (k : Keeper) (ctx : Ctx) (coin : Coin)
    (burnFrom caller : String) (h : (burn t k ctx coin burnFrom caller).2 = none) :
    DenomStr.Validate coin.Denom = none ∧
    ∃ src, t.AccAddressFromBech32 burnFrom = .ok src ∧ k.BlockedAddr src = false ∧
      coin.Amount ≤ ctx.bank.balances src coin.Denom := by
  cases hv : DenomStr.Validate coin.Denom with
  | some e => simp [burn, hv] at h
  | none =>
    cases hp : t.AccAddressFromBech32 burnFrom with
    | error e => simp [burn, hv, hp] at h
    | ok src =>
      cases hb : k.BlockedAddr src with
      | true => simp [burn, hv, hp, hb] at h
      | false =>
        refine ⟨rfl, src, rfl, hb, ?_⟩
        by_cases hlow : ctx.bank.balances src coin.Denom < coin.Amount
        · simp [burn, hv, hp, hb, NewCoins, SendCoinsFromAccountToModule, SendCoins,
            Bank.subUnlockedCoins, hlow] at h
        · exact Nat.not_lt.mp hlow

/-- The handler `BurnNative` touches the ledger's balances and supply only,
whatever its result. -/
theorem BurnNative_frame (t : Types) (k : Keeper) (ctx : Ctx) (msg : Option MsgBurnNative) :
    (BurnNative t k ctx msg).1.denomAdmins = ctx.denomAdmins ∧
    (BurnNative t k ctx msg).1.ModuleParams = ctx.ModuleParams ∧
    (BurnNative t k ctx msg).1.events = ctx.events := by
  unfold BurnNative
  split
  · exact ⟨rfl, rfl, rfl⟩
  · split
    · exact ⟨rfl, rfl, rfl⟩
    · dsimp only
      split
      · exact ⟨rfl, rfl, rfl⟩
      · split
        · exact ⟨rfl, rfl, rfl⟩
        · exact ⟨rfl, rfl, rfl⟩

/-- The frame of `mint`, read off a result. -/
theorem mint_frame_of {t : Types} {k : Keeper} {ctx ctx1 : Ctx} {coin : Coin}
    {mintTo caller : String} {e : Option Err}
    (h : mint t k ctx coin mintTo caller = (ctx1, e)) :
    ctx1.denomAdmins = ctx.denomAdmins ∧ ctx1.ModuleParams = ctx.ModuleParams ∧
    ctx1.events = ctx.events := by
  have hf := mint_frame t k ctx coin mintTo caller
  rw [h] at hf
  exact hf

/-- The frame of `burn`, read off a result. -/
theorem burn_frame_of {t : Types} {k : Keeper} {ctx ctx1 : Ctx} {coin : Coin}
    {burnFrom caller : String} {e : Option Err}
    (h : burn t k ctx coin burnFrom caller = (ctx1, e)) :
    ctx1.denomAdmins = ctx.denomAdmins ∧ ctx1.ModuleParams = ctx.ModuleParams ∧
    ctx1.events = ctx.events := by
  have hf := burn_frame t k ctx coin burnFrom caller
  rw [h] at hf
  exact hf

/-- The handler `Mint` leaves the authority store and the parameters alone,
whatever its result. -/
theorem Mint_frame (t : Types) (k : Keeper) (ctx : Ctx) (txMsg : Option MsgMint) :
    (Mint t k ctx txMsg).1.denomAdmins = ctx.denomAdmins ∧
    (Mint t k ctx txMsg).1.ModuleParams = ctx.ModuleParams := by
  unfold Mint
  split
  · exact ⟨rfl, rfl⟩
  · split
    · exact ⟨rfl, rfl⟩
    · split
      · exact ⟨rfl, rfl⟩
      · split
        · exact ⟨rfl, rfl⟩
        · dsimp only
          split
          · rename_i h
            exact ⟨(mint_frame_of h).1, (mint_frame_of h).2.1⟩
          · rename_i h
            exact ⟨(mint_frame_of h).1, (mint_frame_of h).2.1⟩

/-- The handler `Burn` leaves the authority store and the parameters alone,
whatever its result. -/
theorem Burn_frame (t : Types) (k : Keeper) (ctx : Ctx) (txMsg : Option MsgBurn) :
    (Burn t k ctx txMsg).1.denomAdmins = ctx.denomAdmins ∧
    (Burn t k ctx txMsg).1.ModuleParams = ctx.ModuleParams := by
  unfold Burn
  split
  · exact ⟨rfl, rfl⟩
  · split
    · exact ⟨rfl, rfl⟩
    · split
      · exact ⟨rfl, rfl⟩
      · split
        · exact ⟨rfl, rfl⟩
        · dsimp only
          split
          · rename_i h
            exact ⟨(burn_frame_of h).1, (burn_frame_of h).2.1⟩
          · rename_i h
            exact ⟨(burn_frame_of h).1, (burn_frame_of h).2.1⟩


/-- The two ways a `Mint` of a non-nil message goes: it fails before `mint`
with the state unchanged, or it passes validation and authorization and its
result is the one of `mint` for the resolved recipient. -/
theorem Mint_cases (t : Types) (k : Keeper) (ctx : Ctx) (txMsg : MsgMint) :
    (∃ err, Mint t k ctx (some txMsg) = (ctx, .error err)) ∨
    (t.ValidateBasicMint txMsg = none ∧ GetAdmin ctx txMsg.Coin.Denom = .ok txMsg.Sender ∧
      Mint t k ctx (some txMsg)
        = match mint t k ctx txMsg.Coin
            (if txMsg.MintTo = "" then txMsg.Sender else txMsg.MintTo) txMsg.Sender with
          | (ctx1, some err) => (ctx1, .error err)
          | (ctx1, none) =>
            (EmitTypedEvent ctx1 (.EventMint txMsg.Coin
                (if txMsg.MintTo = "" then txMsg.Sender else txMsg.MintTo) txMsg.Sender),
              .ok { MintTo := if txMsg.MintTo = "" then txMsg.Sender else txMsg.MintTo })) := by
  cases hv : t.ValidateBasicMint txMsg with
  | some e => exact Or.inl ⟨e, by simp [Mint, hv]⟩
  | none =>
    cases hg : GetAdmin ctx txMsg.Coin.Denom with
    | error e => exact Or.inl ⟨e, by simp [Mint, hv, hg]⟩
    | ok admin =>
      by_cases hs : txMsg.Sender = admin
      · subst hs
        refine Or.inr ⟨rfl, rfl, ?_⟩
        by_cases hto : txMsg.MintTo = ""
        · simp [Mint, hv, hg, hto]
        · simp [Mint, hv, hg, hto]
      · exact Or.inl ⟨Err.ErrUnauthorized, by simp [Mint, hv, hg, hs]⟩

/-- The two ways a `Burn` of a non-nil message goes: it fails before `burn`
with the state unchanged, or it passes validation and authorization and its
result is the one of `burn` for the resolved source. -/
theorem Burn_cases (t : Types) (k : Keeper) (ctx : Ctx) (txMsg : MsgBurn) :
    (∃ err, Burn t k ctx (some txMsg) = (ctx, .error err)) ∨
    (t.ValidateBasicBurn txMsg = none ∧ GetAdmin ctx txMsg.Coin.Denom = .ok txMsg.Sender ∧
      Burn t k ctx (some txMsg)
        = match burn t k ctx txMsg.Coin
            (if txMsg.BurnFrom = "" then txMsg.Sender else txMsg.BurnFrom) txMsg.Sender with
          | (ctx1, some err) => (ctx1, .error err)
          | (ctx1, none) =>
            (EmitTypedEvent ctx1 (.EventBurn txMsg.Coin
                (if txMsg.BurnFrom = "" then txMsg.Sender else txMsg.BurnFrom) txMsg.Sender),
              .ok {})) := by
  cases hv : t.ValidateBasicBurn txMsg with
  | some e => exact Or.inl ⟨e, by simp [Burn, hv]⟩
  | none =>
    cases hg : GetAdmin ctx txMsg.Coin.Denom with
    | error e => exact Or.inl ⟨e, by simp [Burn, hv, hg]⟩
    | ok admin =>
      by_cases hs : txMsg.Sender = admin
      · subst hs
        refine Or.inr ⟨rfl, rfl, ?_⟩
        by_cases hfrom : txMsg.BurnFrom = ""
        · simp [Burn, hv, hg, hfrom]
        · simp [Burn, hv, hg, hfrom]
      · exact Or.inl ⟨Err.ErrUnauthorized, by simp [Burn, hv, hg, hs]⟩

/-- A `mint` of a coin outside the namespace fails at once. -/
theorem mint_bad_namespace (t : Types) (k : Keeper) (ctx : Ctx) (coin : Coin)
    (mintTo caller : String) (e : Err) (h : DenomStr.Validate coin.Denom = some e) :
    mint t k ctx coin mintTo caller = (ctx, some e) := by
  simp [mint, h]

/-- A `burn` of a coin outside the namespace fails at once. -/
theorem burn_bad_namespace (t : Types) (k : Keeper) (ctx : Ctx) (coin : Coin)
    (burnFrom caller : String) (e : Err) (h : DenomStr.Validate coin.Denom = some e) :
    burn t k ctx coin burnFrom caller = (ctx, some e) := by
  simp [burn, h]

/-- The exit state of a `BurnNative` whose sender parses and holds the coin:
the sender is debited and the module account nets to zero. -/
theorem BurnNative_run (t : Types) (k : Keeper) (ctx : Ctx) (msg : MsgBurnNative)
    (sender : AccAddress) (hsender : t.AccAddressFromBech32 msg.Sender = .ok sender)
    (hholds : msg.Coin.Amount ≤ ctx.bank.balances sender msg.Coin.Denom) :
    (BurnNative t k ctx (some msg)).2 = .ok {} ∧
    (∀ a d, (BurnNative t k ctx (some msg)).1.bank.balances a d
      = if a = sender ∧ d = msg.Coin.Denom then ctx.bank.balances a d - msg.Coin.Amount
        else ctx.bank.balances a d) := by
  have hnlt : ¬ ctx.bank.balances sender msg.Coin.Denom < msg.Coin.Amount :=
    Nat.not_lt.mpr hholds
  by_cases hmod : sender = k.GetModuleAddress ModuleName
  · subst hmod
    simp only [BurnNative, NewCoins, BurnCoins, hsender, SendCoinsFromAccountToModule,
      SendCoins, Bank.subUnlockedCoins, Bank.addCoins, hnlt, if_false, and_self, if_true,
      Nat.sub_add_cancel hholds]
    refine ⟨trivial, ?_⟩
    intro a d
    by_cases h2 : d = msg.Coin.Denom
    · by_cases h1 : a = k.GetModuleAddress ModuleName
      · subst h1; simp [h2, Nat.sub_add_cancel hholds]
      · simp [h1, h2]
    · simp [h2]
  · have hmod2 : ¬ k.GetModuleAddress ModuleName = sender := fun h => hmod h.symm
    simp only [BurnNative, NewCoins, BurnCoins, hsender, SendCoinsFromAccountToModule,
      SendCoins, Bank.subUnlockedCoins, Bank.addCoins, hnlt, if_false, and_self, if_true,
      hmod2, false_and, Nat.not_lt.mpr (Nat.le_add_left _ _)]
    refine ⟨trivial, ?_⟩
    intro a d
    by_cases h2 : d = msg.Coin.Denom
    · by_cases h3 : a = sender
      · subst h3; simp [h2, hmod]
      · by_cases h1 : a = k.GetModuleAddress ModuleName
        · subst h1; simp [h2, hmod2]
        · simp [h1, h2, h3]
    · simp [h2]

/-- A `BurnNative` that succeeds had a sender that parses and holds the
coin. -/
theorem BurnNative_ok_inv (t : Types) (k : Keeper) (ctx : Ctx) (msg : MsgBurnNative)
    (resp : MsgBurnNativeResponse) (h : (BurnNative t k ctx (some msg)).2 = .ok resp) :
    ∃ sender, t.AccAddressFromBech32 msg.Sender = .ok sender ∧
      msg.Coin.Amount ≤ ctx.bank.balances sender msg.Coin.Denom := by
  cases hp : t.AccAddressFromBech32 msg.Sender with
  | error e => simp [BurnNative, hp] at h
  | ok sender =>
    refine ⟨sender, rfl, ?_⟩
    by_cases hlow : ctx.bank.balances sender msg.Coin.Denom < msg.Coin.Amount
    · simp [BurnNative, hp, NewCoins, SendCoinsFromAccountToModule, SendCoins,
        Bank.subUnlockedCoins, hlow] at h
    · exact Nat.not_lt.mp hlow

/-! ## Module parameters, continued -/

/-- C11 (as stated, refuted): the keeper whose configured authority is the
empty string receives a command sent by that authority with valid parameters;
structural validation, which runs first, rejects the command, so it does not
succeed and the stored parameters are not those of the command. -/
theorem UpdateModuleParams_by_authority_rejected_by_validation :
    ({ Authority := "", Params := { DenomCreationGasConsume := 5 } }
      : MsgUpdateModuleParams).Authority = unsetAuthorityKeeper.authority ∧
    sampleTypes.ParamsValidate { DenomCreationGasConsume := 5 } = none ∧
    UpdateModuleParams sampleTypes unsetAuthorityKeeper sampleCtx
      (some { Authority := "", Params := { DenomCreationGasConsume := 5 } })
      = (sampleCtx, .error (Err.ErrValidationFailed 3)) ∧
    (UpdateModuleParams sampleTypes unsetAuthorityKeeper sampleCtx
      (some { Authority := "", Params := { DenomCreationGasConsume := 5 } })).2 ≠ .ok {} ∧
    (UpdateModuleParams sampleTypes unsetAuthorityKeeper sampleCtx
      (some { Authority := "", Params := { DenomCreationGasConsume := 5 } })).1.ModuleParams
      ≠ { DenomCreationGasConsume := 5 } := by
  refine ⟨by decide, by decide, rfl, by decide, by decide⟩

/-- C11 (amended): for an `UpdateModuleParams` command sent by the configured
governance authority: when the command fails structural validation it fails
with that validation's error; when it passes structural validation and the
parameters fail validation it fails with the parameters' validation error; in
both cases the state, the stored parameters included, is unchanged, so
whenever the parameters fail validation the command fails with a validation
error; when the command passes structural validation and the parameters are
valid the command succeeds, the stored parameters are exactly those of the
command, and every authority record is unchanged. -/
theorem UpdateModuleParams_by_authority (t : Types) (k : Keeper) (ctx : Ctx)
    (txMsg : MsgUpdateModuleParams) (hauthority : txMsg.Authority = k.authority) :
    (∀ e, t.ParamsValidate txMsg.Params = some e →
      ∃ err, UpdateModuleParams t k ctx (some txMsg) = (ctx, .error err) ∧
        (t.ValidateBasicUpdateModuleParams txMsg = some err ∨ err = e)) ∧
    (t.ValidateBasicUpdateModuleParams txMsg = none → t.ParamsValidate txMsg.Params = none →
      (UpdateModuleParams t k ctx (some txMsg)).2 = .ok {} ∧
      (UpdateModuleParams t k ctx (some txMsg)).1.ModuleParams = txMsg.Params ∧
      (UpdateModuleParams t k ctx (some txMsg)).1.denomAdmins = ctx.denomAdmins) ∧
    (∀ e, t.ValidateBasicUpdateModuleParams txMsg = some e →
      UpdateModuleParams t k ctx (some txMsg) = (ctx, .error e)) ∧
    (∀ e, t.ValidateBasicUpdateModuleParams txMsg = none →
      t.ParamsValidate txMsg.Params = some e →
      UpdateModuleParams t k ctx (some txMsg) = (ctx, .error e)) := by
  refine ⟨?_, ?_, ?_, ?_⟩
  · intro e he
    cases hv : t.ValidateBasicUpdateModuleParams txMsg with
    | some err => exact ⟨err, by simp [UpdateModuleParams, hv], Or.inl rfl⟩
    | none => exact ⟨e, by simp [UpdateModuleParams, hv, hauthority, he], Or.inr rfl⟩
  · intro hv hp
    simp [UpdateModuleParams, hv, hauthority, hp, ModuleParamsSet]
  · intro e hv
    simp [UpdateModuleParams, hv]
  · intro e hv he
    simp [UpdateModuleParams, hv, hauthority, he]

/-- C11 (amended) at the sample keeper: `gov` sets the gas figure to 5, and
may not set it to 5000. -/
theorem UpdateModuleParams_by_authority_witness :
    ((UpdateModuleParams sampleTypes sampleKeeper sampleCtx
        (some { Authority := "gov", Params := { DenomCreationGasConsume := 5 } })).2 = .ok {} ∧
      (UpdateModuleParams sampleTypes sampleKeeper sampleCtx
        (some { Authority := "gov", Params := { DenomCreationGasConsume := 5 } })).1.ModuleParams
        = { DenomCreationGasConsume := 5 } ∧
      (UpdateModuleParams sampleTypes sampleKeeper sampleCtx
        (some { Authority := "gov", Params := { DenomCreationGasConsume := 5 } })).1.denomAdmins
        = sampleCtx.denomAdmins) ∧
    UpdateModuleParams sampleTypes sampleKeeper sampleCtx
        (some { Authority := "gov", Params := { DenomCreationGasConsume := 5000 } })
      = (sampleCtx, .error (Err.ErrValidationFailed 8)) :=
  ⟨(UpdateModuleParams_by_authority sampleTypes sampleKeeper sampleCtx
      { Authority := "gov", Params := { DenomCreationGasConsume := 5 } } (by decide)).2.1
      (by decide) (by decide),
   (UpdateModuleParams_by_authority sampleTypes sampleKeeper sampleCtx
      { Authority := "gov", Params := { DenomCreationGasConsume := 5000 } } (by decide)).2.2.2
      (Err.ErrValidationFailed 8) (by decide) (by decide)⟩

/-! ## Nil commands -/

/-- C13 (the code at the failing input): given a nil message, `BurnNative`
faults on reading `msg.Sender`; the other seven handlers return
`ErrNilGrpcMsg`; in all eight the state is unchanged. -/
theorem nil_command (t : Types) (k : Keeper) (ctx : Ctx) :
    BurnNative t k ctx none = (ctx, .fault) ∧
    CreateDenom t k ctx none = (ctx, .error Err.ErrNilGrpcMsg) ∧
    ChangeAdmin t k ctx none = (ctx, .error Err.ErrNilGrpcMsg) ∧
    UpdateModuleParams t k ctx none = (ctx, .error Err.ErrNilGrpcMsg) ∧
    Mint t k ctx none = (ctx, .error Err.ErrNilGrpcMsg) ∧
    Burn t k ctx none = (ctx, .error Err.ErrNilGrpcMsg) ∧
    SetDenomMetadata t k ctx none = (ctx, .error Err.ErrNilGrpcMsg) ∧
    SudoSetDenomMetadata t k ctx none = (ctx, .error Err.ErrNilGrpcMsg) :=
  ⟨rfl, rfl, rfl, rfl, rfl, rfl, rfl, rfl⟩

/-! ## Metadata -/

/-- C16: for a structurally valid `SetDenomMetadata`: when `Metadata.Base` has
no authority record it fails with `ErrNotFound`; when the sender is not the
recorded admin it fails with `ErrUnauthorized`; in both cases the state, the
metadata registry included, is unchanged; when the sender is the recorded
admin it succeeds and the registry holds the command's metadata for that
denomination. -/
theorem SetDenomMetadata_cases (t : Types) (k : Keeper) (ctx : Ctx)
    (txMsg : MsgSetDenomMetadata) (hvalid : t.ValidateBasicSetDenomMetadata txMsg = none) :
    (ctx.denomAdmins txMsg.Metadata.Base = none →
      SetDenomMetadata t k ctx (some txMsg) = (ctx, .error Err.ErrNotFound)) ∧
    (∀ A, ctx.denomAdmins txMsg.Metadata.Base = some { Admin := A } → txMsg.Sender ≠ A →
      SetDenomMetadata t k ctx (some txMsg) = (ctx, .error Err.ErrUnauthorized)) ∧
    (∀ A, ctx.denomAdmins txMsg.Metadata.Base = some { Admin := A } → txMsg.Sender = A →
      (SetDenomMetadata t k ctx (some txMsg)).2 = .ok {} ∧
      (SetDenomMetadata t k ctx (some txMsg)).1.bank.denomMetaData txMsg.Metadata.Base
        = some txMsg.Metadata) := by
  refine ⟨?_, ?_, ?_⟩
  · intro hnone
    simp [SetDenomMetadata, hvalid, GetAdmin, GetDenomAuthorityMetadata, hnone]
  · intro A hadmin hsender
    simp [SetDenomMetadata, hvalid, GetAdmin, GetDenomAuthorityMetadata, hadmin, hsender]
  · intro A hadmin hsender
    simp [SetDenomMetadata, hvalid, GetAdmin, GetDenomAuthorityMetadata, hadmin, hsender,
      EmitTypedEvent, SetDenomMetaData]

/-- C16 at the sample state: metadata for an unknown denomination, by a
stranger, and by the admin. -/
theorem SetDenomMetadata_cases_witness :
    SetDenomMetadata sampleTypes sampleKeeper sampleCtx
      (some { Sender := "alice", Metadata := { Base := "factory/bob/tin", Description := "" } })
      = (sampleCtx, .error Err.ErrNotFound) ∧
    SetDenomMetadata sampleTypes sampleKeeper sampleCtx
      (some { Sender := "bob",
              Metadata := { Base := "factory/alice/gold", Description := "gold" } })
      = (sampleCtx, .error Err.ErrUnauthorized) ∧
    (SetDenomMetadata sampleTypes sampleKeeper sampleCtx
      (some { Sender := "alice",
              Metadata := { Base := "factory/alice/gold", Description := "gold" } })).1.bank.denomMetaData
        "factory/alice/gold" = some { Base := "factory/alice/gold", Description := "gold" } :=
  ⟨(SetDenomMetadata_cases sampleTypes sampleKeeper sampleCtx
      { Sender := "alice", Metadata := { Base := "factory/bob/tin", Description := "" } }
      (by decide)).1 (by decide),
   (SetDenomMetadata_cases sampleTypes sampleKeeper sampleCtx
      { Sender := "bob", Metadata := { Base := "factory/alice/gold", Description := "gold" } }
      (by decide)).2.1 "alice" (by decide) (by decide),
   ((SetDenomMetadata_cases sampleTypes sampleKeeper sampleCtx
      { Sender := "alice", Metadata := { Base := "factory/alice/gold", Description := "gold" } }
      (by decide)).2.2 "alice" (by decide) (by decide)).2⟩

/-! ## Frame of the admin transfer -/

/-- C19: for every `ChangeAdmin` command for denomination `d`, successful or
not, the authority record of every denomination other than `d`, the module
parameters and the ledger (every balance, the total supply) are unchanged,
and a denomination has an authority record after the command exactly when it
had one before. -/
theorem ChangeAdmin_frame (t : Types) (k : Keeper) (ctx : Ctx) (txMsg : MsgChangeAdmin) :
    (∀ d, d ≠ txMsg.Denom →
      (ChangeAdmin t k ctx (some txMsg)).1.denomAdmins d = ctx.denomAdmins d) ∧
    (ChangeAdmin t k ctx (some txMsg)).1.ModuleParams = ctx.ModuleParams ∧
    (ChangeAdmin t k ctx (some txMsg)).1.bank = ctx.bank ∧
    (∀ d, ((ChangeAdmin t k ctx (some txMsg)).1.denomAdmins d).isSome
      = (ctx.denomAdmins d).isSome) := by
  cases hv : t.ValidateBasicChangeAdmin txMsg with
  | some e => simp [ChangeAdmin, hv]
  | none =>
    cases hrec : ctx.denomAdmins txMsg.Denom with
    | none => simp [ChangeAdmin, hv, GetDenomAuthorityMetadata, hrec]
    | some authData =>
      by_cases hs : txMsg.Sender = authData.Admin
      · simp only [ChangeAdmin, hv, GetDenomAuthorityMetadata, hrec, hs, ne_eq,
          not_true_eq_false, if_false, EmitTypedEvent, denomAdminsInsert]
        refine ⟨?_, trivial, trivial, ?_⟩
        · intro d hd
          simp [hd]
        · intro d
          by_cases hd : d = txMsg.Denom
          · simp [hd, hrec]
          · simp [hd]
      · simp [ChangeAdmin, hv, GetDenomAuthorityMetadata, hrec, hs]


/-- C19 at the sample state: after `alice` hands `factory/alice/gold` to
`bob`, the record of `uatom` and the ledger are as before. -/
theorem ChangeAdmin_frame_witness :
    (ChangeAdmin sampleTypes sampleKeeper sampleCtx
      (some { Sender := "alice", Denom := "factory/alice/gold", NewAdmin := "bob" })).1.denomAdmins
        "uatom" = sampleCtx.denomAdmins "uatom" ∧
    (ChangeAdmin sampleTypes sampleKeeper sampleCtx
      (some { Sender := "alice", Denom := "factory/alice/gold", NewAdmin := "bob" })).1.bank
      = sampleCtx.bank :=
  have h := ChangeAdmin_frame sampleTypes sampleKeeper sampleCtx
    { Sender := "alice", Denom := "factory/alice/gold", NewAdmin := "bob" }
  ⟨h.1 "uatom" (by decide), h.2.2.1⟩

/-! ## Recipient and source -/

/-- C15: a `Mint` that succeeds credits `MintTo` when it is not empty and the
sender when it is: the response's `MintTo` and the `EventMint` appended to the
events name that resolved recipient, which parses to an address whose balance
of the coin's denomination has grown by the amount; likewise a `Burn` with an
empty `BurnFrom` that succeeds debits the sender. -/
theorem Mint_Burn_resolved (t : Types) (k : Keeper) (ctx : Ctx) :
    (∀ (txMsg : MsgMint) (resp : MsgMintResponse),
      (Mint t k ctx (some txMsg)).2 = .ok resp →
      resp.MintTo = (if txMsg.MintTo = "" then txMsg.Sender else txMsg.MintTo) ∧
      (Mint t k ctx (some txMsg)).1.events = ctx.events ++ [.EventMint txMsg.Coin
        (if txMsg.MintTo = "" then txMsg.Sender else txMsg.MintTo) txMsg.Sender] ∧
      ∃ r, t.AccAddressFromBech32 (if txMsg.MintTo = "" then txMsg.Sender else txMsg.MintTo)
          = .ok r ∧
        (Mint t k ctx (some txMsg)).1.bank.balances r txMsg.Coin.Denom
          = ctx.bank.balances r txMsg.Coin.Denom + txMsg.Coin.Amount) ∧
    (∀ (txMsg : MsgBurn) (resp : MsgBurnResponse), txMsg.BurnFrom = "" →
      (Burn t k ctx (some txMsg)).2 = .ok resp →
      ∃ src, t.AccAddressFromBech32 txMsg.Sender = .ok src ∧
        (Burn t k ctx (some txMsg)).1.bank.balances src txMsg.Coin.Denom + txMsg.Coin.Amount
          = ctx.bank.balances src txMsg.Coin.Denom) := by
  constructor
  · intro txMsg resp hok
    rcases Mint_cases t k ctx txMsg with ⟨err, herr⟩ | ⟨_, _, hrun⟩
    · rw [herr] at hok
      cases hok
    · rw [hrun] at hok ⊢
      cases hm : mint t k ctx txMsg.Coin
          (if txMsg.MintTo = "" then txMsg.Sender else txMsg.MintTo) txMsg.Sender with
      | mk ctx1 e =>
        rw [hm] at hok
        cases e with
        | some err => cases hok
        | none =>
          have h2 : (mint t k ctx txMsg.Coin
              (if txMsg.MintTo = "" then txMsg.Sender else txMsg.MintTo) txMsg.Sender).2
              = none := by rw [hm]
          obtain ⟨hns, r, hparse, hblocked⟩ := mint_ok_inv t k ctx _ _ _ h2
          have hbal := (mint_run t k ctx txMsg.Coin _ txMsg.Sender r hns hparse hblocked).2.1
            r txMsg.Coin.Denom
          rw [hm] at hbal
          injection hok with hresp
          refine ⟨by rw [← hresp], ?_, r, hparse, ?_⟩
          · simp [EmitTypedEvent, (mint_frame_of hm).2.2]
          · simpa [EmitTypedEvent] using hbal
  · intro txMsg resp hfrom hok
    rcases Burn_cases t k ctx txMsg with ⟨err, herr⟩ | ⟨_, _, hrun⟩
    · rw [herr] at hok
      cases hok
    · simp only [hfrom, if_true] at hrun
      rw [hrun] at hok ⊢
      cases hb : burn t k ctx txMsg.Coin txMsg.Sender txMsg.Sender with
      | mk ctx1 e =>
        rw [hb] at hok
        cases e with
        | some err => cases hok
        | none =>
          have h2 : (burn t k ctx txMsg.Coin txMsg.Sender txMsg.Sender).2 = none := by rw [hb]
          obtain ⟨hns, src, hparse, hblocked, hholds⟩ := burn_ok_inv t k ctx _ _ _ h2
          have hbal := (burn_run t k ctx txMsg.Coin _ txMsg.Sender src hns hparse hblocked
            hholds).2.1 src txMsg.Coin.Denom
          rw [hb] at hbal
          have hbal2 : ctx1.bank.balances src txMsg.Coin.Denom
              = ctx.bank.balances src txMsg.Coin.Denom - txMsg.Coin.Amount := by
            simpa using hbal
          refine ⟨src, hparse, ?_⟩
          show ctx1.bank.balances src txMsg.Coin.Denom + txMsg.Coin.Amount
            = ctx.bank.balances src txMsg.Coin.Denom
          rw [hbal2]
          exact Nat.sub_add_cancel hholds

/-- C15 at the sample state: a mint with an empty `MintTo` succeeds, answers
with the sender `alice` and records her as the recipient in the event. -/
theorem Mint_Burn_resolved_witness :
    (Mint sampleTypes sampleKeeper sampleCtx
      (some { Sender := "alice", Coin := { Denom := "factory/alice/gold", Amount := 7 },
              MintTo := "" })).2 = .ok { MintTo := "alice" } ∧
    (Mint sampleTypes sampleKeeper sampleCtx
      (some { Sender := "alice", Coin := { Denom := "factory/alice/gold", Amount := 7 },
              MintTo := "" })).1.events
      = sampleCtx.events
        ++ [.EventMint { Denom := "factory/alice/gold", Amount := 7 } "alice" "alice"] :=
  ⟨by decide,
   ((Mint_Burn_resolved sampleTypes sampleKeeper sampleCtx).1
      { Sender := "alice", Coin := { Denom := "factory/alice/gold", Amount := 7 },
        MintTo := "" } { MintTo := "alice" } (by decide)).2.1⟩

/-! ## Namespace -/

/-- C17: in every state, a `Mint` or `Burn` command whose coin denomination
does not start with the reserved factory prefix fails, and the state at exit
is the state at entry: every balance and the total supply are unchanged. -/
theorem Mint_Burn_outside_namespace (t : Types) (k : Keeper) (ctx : Ctx) (coin : Coin)
    (hforeign : FactoryPrefix.data.isPrefixOf coin.Denom.data = false) :
    (∀ sender mintTo, ∃ err,
      Mint t k ctx (some { Sender := sender, Coin := coin, MintTo := mintTo })
        = (ctx, .error err)) ∧
    (∀ sender burnFrom, ∃ err,
      Burn t k ctx (some { Sender := sender, Coin := coin, BurnFrom := burnFrom })
        = (ctx, .error err)) := by
  have hv : DenomStr.Validate coin.Denom = some Err.ErrInvalidNamespace := by
    simp [DenomStr.Validate, hforeign]
  constructor
  · intro sender mintTo
    rcases Mint_cases t k ctx { Sender := sender, Coin := coin, MintTo := mintTo } with
      h | ⟨_, _, hrun⟩
    · exact h
    · refine ⟨Err.ErrInvalidNamespace, ?_⟩
      rw [hrun, mint_bad_namespace t k ctx coin _ _ _ hv]
  · intro sender burnFrom
    rcases Burn_cases t k ctx { Sender := sender, Coin := coin, BurnFrom := burnFrom } with
      h | ⟨_, _, hrun⟩
    · exact h
    · refine ⟨Err.ErrInvalidNamespace, ?_⟩
      rw [hrun, burn_bad_namespace t k ctx coin _ _ _ hv]

/-- C17 at the sample state, whose authority store holds the foreign key
`uatom` with admin `alice`: she can neither mint nor burn it. -/
theorem Mint_Burn_outside_namespace_witness :
    (∃ err, Mint sampleTypes sampleKeeper sampleCtx
      (some { Sender := "alice", Coin := { Denom := "uatom", Amount := 7 }, MintTo := "bob" })
        = (sampleCtx, .error err)) ∧
    (∃ err, Burn sampleTypes sampleKeeper sampleCtx
      (some { Sender := "alice", Coin := { Denom := "uatom", Amount := 7 }, BurnFrom := "" })
        = (sampleCtx, .error err)) :=
  have h := Mint_Burn_outside_namespace sampleTypes sampleKeeper sampleCtx
    { Denom := "uatom", Amount := 7 } (by decide)
  ⟨h.1 "alice" "bob", h.2 "alice" ""⟩


/-! ## Writers of the authority store -/

/-- The handler `CreateDenom` either leaves the authority store alone or adds
the record of a canonical key that had none, with the creator as admin. -/
theorem CreateDenom_store (t : Types) (k : Keeper) (ctx : Ctx)
    (txMsg : Option MsgCreateDenom) :
    (CreateDenom t k ctx txMsg).1.denomAdmins = ctx.denomAdmins ∨
    ∃ m, txMsg = some m ∧
      ctx.denomAdmins (TFDenom.Denom { Creator := m.Sender, Subdenom := m.Subdenom }) = none ∧
      (CreateDenom t k ctx txMsg).1.denomAdmins = fun d =>
        if d = TFDenom.Denom { Creator := m.Sender, Subdenom := m.Subdenom }
        then some { Admin := m.Sender } else ctx.denomAdmins d := by
  cases txMsg with
  | none => exact Or.inl rfl
  | some m =>
    cases hv : t.ValidateBasicCreateDenom m with
    | some e => exact Or.inl (by simp [CreateDenom, hv])
    | none =>
      cases hrec : ctx.denomAdmins
          (TFDenom.Denom { Creator := m.Sender, Subdenom := m.Subdenom }) with
      | some a => exact Or.inl (by simp [CreateDenom, hv, InsertDenom, hrec])
      | none =>
        exact Or.inr ⟨m, rfl, hrec, by simp [CreateDenom, hv, InsertDenom, hrec,
          denomAdminsInsert]⟩

/-- The handler `ChangeAdmin` either leaves the authority store alone or
replaces the record of a denomination that had one. -/
theorem ChangeAdmin_store (t : Types) (k : Keeper) (ctx : Ctx)
    (txMsg : Option MsgChangeAdmin) :
    (ChangeAdmin t k ctx txMsg).1.denomAdmins = ctx.denomAdmins ∨
    ∃ m authData, txMsg = some m ∧ ctx.denomAdmins m.Denom = some authData ∧
      (ChangeAdmin t k ctx txMsg).1.denomAdmins = fun d =>
        if d = m.Denom then some { Admin := m.NewAdmin } else ctx.denomAdmins d := by
  cases txMsg with
  | none => exact Or.inl rfl
  | some m =>
    cases hv : t.ValidateBasicChangeAdmin m with
    | some e => exact Or.inl (by simp [ChangeAdmin, hv])
    | none =>
      cases hrec : ctx.denomAdmins m.Denom with
      | none => exact Or.inl (by simp [ChangeAdmin, hv, GetDenomAuthorityMetadata, hrec])
      | some authData =>
        by_cases hs : m.Sender = authData.Admin
        · exact Or.inr ⟨m, authData, rfl, hrec, by
            simp [ChangeAdmin, hv, GetDenomAuthorityMetadata, hrec, hs, EmitTypedEvent,
              denomAdminsInsert]⟩
        · exact Or.inl (by simp [ChangeAdmin, hv, GetDenomAuthorityMetadata, hrec, hs])

/-- The six handlers other than `CreateDenom` and `ChangeAdmin` leave the
authority store alone. -/
theorem other_handlers_store (t : Types) (k : Keeper) (ctx : Ctx) :
    (∀ m, (Mint t k ctx m).1.denomAdmins = ctx.denomAdmins) ∧
    (∀ m, (Burn t k ctx m).1.denomAdmins = ctx.denomAdmins) ∧
    (∀ m, (SetDenomMetadata t k ctx m).1.denomAdmins = ctx.denomAdmins) ∧
    (∀ m, (SudoSetDenomMetadata t k ctx m).1.denomAdmins = ctx.denomAdmins) ∧
    (∀ m, (BurnNative t k ctx m).1.denomAdmins = ctx.denomAdmins) ∧
    (∀ m, (UpdateModuleParams t k ctx m).1.denomAdmins = ctx.denomAdmins) := by
  refine ⟨fun m => (Mint_frame t k ctx m).1, fun m => (Burn_frame t k ctx m).1, ?_, ?_,
    fun m => (BurnNative_frame t k ctx m).1, ?_⟩
  · intro m
    unfold SetDenomMetadata
    split
    · rfl
    · split
      · rfl
      · dsimp only
        split
        · rfl
        · split <;> rfl
  · intro m
    unfold SudoSetDenomMetadata
    split
    · rfl
    · split
      · rfl
      · dsimp only
        split <;> rfl
  · intro m
    unfold UpdateModuleParams
    split
    · rfl
    · split
      · rfl
      · split
        · rfl
        · split <;> rfl

/-- C14: the authority store is changed only by `CreateDenom`, which adds one
record with admin = creator under a key that had none, and by `ChangeAdmin`,
which replaces the record of a denomination that had one; `Mint`, `Burn`,
`SetDenomMetadata`, `SudoSetDenomMetadata`, `BurnNative` and
`UpdateModuleParams` leave every authority record unchanged; and no command
removes a denomination's record. -/
theorem authority_store_writers (t : Types) (k : Keeper) (ctx : Ctx) :
    ((∀ m, (Mint t k ctx m).1.denomAdmins = ctx.denomAdmins) ∧
     (∀ m, (Burn t k ctx m).1.denomAdmins = ctx.denomAdmins) ∧
     (∀ m, (SetDenomMetadata t k ctx m).1.denomAdmins = ctx.denomAdmins) ∧
     (∀ m, (SudoSetDenomMetadata t k ctx m).1.denomAdmins = ctx.denomAdmins) ∧
     (∀ m, (BurnNative t k ctx m).1.denomAdmins = ctx.denomAdmins) ∧
     (∀ m, (UpdateModuleParams t k ctx m).1.denomAdmins = ctx.denomAdmins)) ∧
    (∀ txMsg, (CreateDenom t k ctx txMsg).1.denomAdmins = ctx.denomAdmins ∨
      ∃ m, txMsg = some m ∧
        ctx.denomAdmins (TFDenom.Denom { Creator := m.Sender, Subdenom := m.Subdenom })
          = none ∧
        (CreateDenom t k ctx txMsg).1.denomAdmins = fun d =>
          if d = TFDenom.Denom { Creator := m.Sender, Subdenom := m.Subdenom }
          then some { Admin := m.Sender } else ctx.denomAdmins d) ∧
    (∀ txMsg, (ChangeAdmin t k ctx txMsg).1.denomAdmins = ctx.denomAdmins ∨
      ∃ m authData, txMsg = some m ∧ ctx.denomAdmins m.Denom = some authData ∧
        (ChangeAdmin t k ctx txMsg).1.denomAdmins = fun d =>
          if d = m.Denom then some { Admin := m.NewAdmin } else ctx.denomAdmins d) ∧
    (∀ c d, (ctx.denomAdmins d).isSome = true →
      ((deliver t k ctx c).denomAdmins d).isSome = true) := by
  have hothers := other_handlers_store t k ctx
  refine ⟨hothers, CreateDenom_store t k ctx, ChangeAdmin_store t k ctx, ?_⟩
  intro c d hd
  cases c with
  | CreateDenom m =>
    rcases CreateDenom_store t k ctx m with h | ⟨m1, _, _, h⟩
    · simp only [deliver, h, hd]
    · simp only [deliver, h]
      split
      · rfl
      · exact hd
  | ChangeAdmin m =>
    rcases ChangeAdmin_store t k ctx m with h | ⟨m1, _, _, _, h⟩
    · simp only [deliver, h, hd]
    · simp only [deliver, h]
      split
      · rfl
      · exact hd
  | UpdateModuleParams m => simp only [deliver, hothers.2.2.2.2.2 m, hd]
  | Mint m => simp only [deliver, hothers.1 m, hd]
  | Burn m => simp only [deliver, hothers.2.1 m, hd]
  | SetDenomMetadata m => simp only [deliver, hothers.2.2.1 m, hd]
  | BurnNative m => simp only [deliver, hothers.2.2.2.2.1 m, hd]
  | SudoSetDenomMetadata m => simp only [deliver, hothers.2.2.2.1 m, hd]

/-- C14 at the sample state: after any one command `factory/alice/gold` still
has a record; here after a `ChangeAdmin` by `alice`. -/
theorem authority_store_writers_witness :
    ((deliver sampleTypes sampleKeeper sampleCtx
      (.ChangeAdmin (some { Sender := "alice", Denom := "factory/alice/gold",
                            NewAdmin := "bob" }))).denomAdmins
        "factory/alice/gold").isSome = true :=
  (authority_store_writers sampleTypes sampleKeeper sampleCtx).2.2.2 _ _ (by decide)

/-! ## The module account -/

/-- C18: after a successful `Mint`, `Burn` or `BurnNative` whose recipient or
source is not the module account, the module account's balance of every
denomination is what it was before: the coins pass through it and net to
zero. -/
theorem module_account_nets_to_zero (t : Types) (k : Keeper) (ctx : Ctx) :
    (∀ (txMsg : MsgMint) (resp : MsgMintResponse) (r : AccAddress),
      (Mint t k ctx (some txMsg)).2 = .ok resp →
      t.AccAddressFromBech32 (if txMsg.MintTo = "" then txMsg.Sender else txMsg.MintTo)
        = .ok r →
      r ≠ k.GetModuleAddress ModuleName →
      ∀ d, (Mint t k ctx (some txMsg)).1.bank.balances (k.GetModuleAddress ModuleName) d
        = ctx.bank.balances (k.GetModuleAddress ModuleName) d) ∧
    (∀ (txMsg : MsgBurn) (resp : MsgBurnResponse) (src : AccAddress),
      (Burn t k ctx (some txMsg)).2 = .ok resp →
      t.AccAddressFromBech32 (if txMsg.BurnFrom = "" then txMsg.Sender else txMsg.BurnFrom)
        = .ok src →
      src ≠ k.GetModuleAddress ModuleName →
      ∀ d, (Burn t k ctx (some txMsg)).1.bank.balances (k.GetModuleAddress ModuleName) d
        = ctx.bank.balances (k.GetModuleAddress ModuleName) d) ∧
    (∀ (msg : MsgBurnNative) (resp : MsgBurnNativeResponse) (sender : AccAddress),
      (BurnNative t k ctx (some msg)).2 = .ok resp →
      t.AccAddressFromBech32 msg.Sender = .ok sender →
      sender ≠ k.GetModuleAddress ModuleName →
      ∀ d, (BurnNative t k ctx (some msg)).1.bank.balances (k.GetModuleAddress ModuleName) d
        = ctx.bank.balances (k.GetModuleAddress ModuleName) d) := by
  refine ⟨?_, ?_, ?_⟩
  · intro txMsg resp r hok hparse hne d
    have hne2 : ¬ k.GetModuleAddress ModuleName = r := fun h => hne h.symm
    rcases Mint_cases t k ctx txMsg with ⟨err, herr⟩ | ⟨_, _, hrun⟩
    · rw [herr] at hok
      cases hok
    · rw [hrun] at hok ⊢
      cases hm : mint t k ctx txMsg.Coin
          (if txMsg.MintTo = "" then txMsg.Sender else txMsg.MintTo) txMsg.Sender with
      | mk ctx1 e =>
        rw [hm] at hok
        cases e with
        | some err => cases hok
        | none =>
          have h2 : (mint t k ctx txMsg.Coin
              (if txMsg.MintTo = "" then txMsg.Sender else txMsg.MintTo) txMsg.Sender).2
              = none := by rw [hm]
          obtain ⟨hns, r1, hparse1, hblocked⟩ := mint_ok_inv t k ctx _ _ _ h2
          have hr : r1 = r := by
            rw [hparse] at hparse1
            injection hparse1 with h
            exact h.symm
          subst hr
          have hbal := (mint_run t k ctx txMsg.Coin _ txMsg.Sender r1 hns hparse1
            hblocked).2.1 (k.GetModuleAddress ModuleName) d
          rw [hm] at hbal
          simpa [EmitTypedEvent, hne2] using hbal
  · intro txMsg resp src hok hparse hne d
    have hne2 : ¬ k.GetModuleAddress ModuleName = src := fun h => hne h.symm
    rcases Burn_cases t k ctx txMsg with ⟨err, herr⟩ | ⟨_, _, hrun⟩
    · rw [herr] at hok
      cases hok
    · rw [hrun] at hok ⊢
      cases hb : burn t k ctx txMsg.Coin
          (if txMsg.BurnFrom = "" then txMsg.Sender else txMsg.BurnFrom) txMsg.Sender with
      | mk ctx1 e =>
        rw [hb] at hok
        cases e with
        | some err => cases hok
        | none =>
          have h2 : (burn t k ctx txMsg.Coin
              (if txMsg.BurnFrom = "" then txMsg.Sender else txMsg.BurnFrom) txMsg.Sender).2
              = none := by rw [hb]
          obtain ⟨hns, src1, hparse1, hblocked, hholds⟩ := burn_ok_inv t k ctx _ _ _ h2
          have hr : src1 = src := by
            rw [hparse] at hparse1
            injection hparse1 with h
            exact h.symm
          subst hr
          have hbal := (burn_run t k ctx txMsg.Coin _ txMsg.Sender src1 hns hparse1 hblocked
            hholds).2.1 (k.GetModuleAddress ModuleName) d
          rw [hb] at hbal
          simpa [EmitTypedEvent, hne2] using hbal
  · intro msg resp sender hok hparse hne d
    have hne2 : ¬ k.GetModuleAddress ModuleName = sender := fun h => hne h.symm
    obtain ⟨sender1, hparse1, hholds⟩ := BurnNative_ok_inv t k ctx msg resp hok
    have hr : sender1 = sender := by
      rw [hparse] at hparse1
      injection hparse1 with h
      exact h.symm
    subst hr
    have hbal := (BurnNative_run t k ctx msg sender1 hparse1 hholds).2
      (k.GetModuleAddress ModuleName) d
    simpa [hne2] using hbal

/-- C18 at the sample state: `alice` mints 7 gold to `bob`, and the module
account `tokenfactory` holds as much gold as before. -/
theorem module_account_nets_to_zero_witness :
    (Mint sampleTypes sampleKeeper sampleCtx
      (some { Sender := "alice", Coin := { Denom := "factory/alice/gold", Amount := 7 },
              MintTo := "bob" })).1.bank.balances
        (sampleKeeper.GetModuleAddress ModuleName) "factory/alice/gold"
      = sampleCtx.bank.balances (sampleKeeper.GetModuleAddress ModuleName)
          "factory/alice/gold" :=
  (module_account_nets_to_zero sampleTypes sampleKeeper sampleCtx).1
    { Sender := "alice", Coin := { Denom := "factory/alice/gold", Amount := 7 },
      MintTo := "bob" } { MintTo := "bob" } { raw := "bob" }
    (by decide) rfl (by decide) "factory/alice/gold"


/-! ## Reachable states -/

/-- A canonical denomination string passes namespace validation. -/
theorem Denom_Validate (denom : TFDenom) : DenomStr.Validate denom.Denom = none := by
  have hprefix : FactoryPrefix.data <+: denom.Denom.data := by
    simp only [TFDenom.Denom, String.data_append, List.append_assoc]
    exact List.prefix_append _ _
  simp [DenomStr.Validate, hprefix]

/-- One command keeps every key of the authority store canonical. -/
theorem deliver_canonical (t : Types) (k : Keeper) (ctx : Ctx) (c : Command)
    (hcanon : ∀ d authData, ctx.denomAdmins d = some authData →
      ∃ denom : TFDenom, d = denom.Denom) :
    ∀ d authData, (deliver t k ctx c).denomAdmins d = some authData →
      ∃ denom : TFDenom, d = denom.Denom := by
  have hothers := other_handlers_store t k ctx
  intro d authData hd
  cases c with
  | CreateDenom m =>
    rcases CreateDenom_store t k ctx m with h | ⟨m1, _, _, h⟩
    · simp only [deliver, h] at hd
      exact hcanon d authData hd
    · simp only [deliver, h] at hd
      by_cases hkey : d = TFDenom.Denom { Creator := m1.Sender, Subdenom := m1.Subdenom }
      · exact ⟨_, hkey⟩
      · simp only [hkey, if_false] at hd
        exact hcanon d authData hd
  | ChangeAdmin m =>
    rcases ChangeAdmin_store t k ctx m with h | ⟨m1, old, _, hold, h⟩
    · simp only [deliver, h] at hd
      exact hcanon d authData hd
    · simp only [deliver, h] at hd
      by_cases hkey : d = m1.Denom
      · rw [hkey]
        exact hcanon m1.Denom old hold
      · simp only [hkey, if_false] at hd
        exact hcanon d authData hd
  | UpdateModuleParams m =>
    simp only [deliver, hothers.2.2.2.2.2 m] at hd
    exact hcanon d authData hd
  | Mint m =>
    simp only [deliver, hothers.1 m] at hd
    exact hcanon d authData hd
  | Burn m =>
    simp only [deliver, hothers.2.1 m] at hd
    exact hcanon d authData hd
  | SetDenomMetadata m =>
    simp only [deliver, hothers.2.2.1 m] at hd
    exact hcanon d authData hd
  | BurnNative m =>
    simp only [deliver, hothers.2.2.2.2.1 m] at hd
    exact hcanon d authData hd
  | SudoSetDenomMetadata m =>
    simp only [deliver, hothers.2.2.2.1 m] at hd
    exact hcanon d authData hd

/-- A sequence of commands keeps every key of the authority store canonical. -/
theorem run_canonical (t : Types) (k : Keeper) (cmds : List Command) :
    ∀ ctx : Ctx,
      (∀ d authData, ctx.denomAdmins d = some authData → ∃ denom : TFDenom, d = denom.Denom) →
      ∀ d authData, (run t k ctx cmds).denomAdmins d = some authData →
        ∃ denom : TFDenom, d = denom.Denom := by
  induction cmds with
  | nil => intro ctx hcanon; exact hcanon
  | cons c cs ih =>
    intro ctx hcanon
    exact ih (deliver t k ctx c) (deliver_canonical t k ctx c hcanon)

/-- C20: in every state reached from an empty authority store by a sequence of
the eight commands, every key of the authority store is a canonical string
`factory/<creator>/<subdenom>`; consequently, whenever the admin lookup for a
denomination succeeds there, as it has once `Mint` or `Burn` reach `mint` or
`burn`, the namespace validation of that denomination passes. -/
theorem reachable_keys_canonical (t : Types) (k : Keeper) (ctx0 : Ctx) (cmds : List Command)
    (hempty : ∀ d, ctx0.denomAdmins d = none) :
    (∀ d authData, (run t k ctx0 cmds).denomAdmins d = some authData →
      ∃ creator subdenom, d = "factory/" ++ creator ++ "/" ++ subdenom) ∧
    (∀ d admin, GetAdmin (run t k ctx0 cmds) d = .ok admin → DenomStr.Validate d = none) := by
  have hcanon := run_canonical t k cmds ctx0 (fun d authData hd => by
    rw [hempty d] at hd
    cases hd)
  constructor
  · intro d authData hd
    obtain ⟨denom, hdenom⟩ := hcanon d authData hd
    refine ⟨denom.Creator, denom.Subdenom, ?_⟩
    have h0 : FactoryPrefix ++ "/" = "factory/" := by decide
    rw [hdenom]
    simp only [TFDenom.Denom, h0]
  · intro d admin hget
    cases hrec : (run t k ctx0 cmds).denomAdmins d with
    | none => simp [GetAdmin, GetDenomAuthorityMetadata, hrec] at hget
    | some authData =>
      obtain ⟨denom, hdenom⟩ := hcanon d authData hrec
      rw [hdenom]
      exact Denom_Validate denom

/-- C20 from the genesis state: after `bob` creates `silver` and hands it to
`carol`, the one key of the store is canonical and passes validation. -/
theorem reachable_keys_canonical_witness :
    GetAdmin (run sampleTypes sampleKeeper genesisCtx
      [.CreateDenom (some { Sender := "bob", Subdenom := "silver" }),
       .ChangeAdmin (some { Sender := "bob", Denom := "factory/bob/silver",
                            NewAdmin := "carol" })]) "factory/bob/silver" = .ok "carol" ∧
    DenomStr.Validate "factory/bob/silver" = none :=
  ⟨rfl, (reachable_keys_canonical sampleTypes sampleKeeper genesisCtx
      [.CreateDenom (some { Sender := "bob", Subdenom := "silver" }),
       .ChangeAdmin (some { Sender := "bob", Denom := "factory/bob/silver",
                            NewAdmin := "carol" })] (fun _ => rfl)).2
      "factory/bob/silver" "carol" rfl⟩


/-! ## The scenario -/

/-- A `Mint` that passes every check: the response names the resolved
recipient, the authority store stays, the recipient is credited and the
supply grows. -/
theorem Mint_run (t : Types) (k : Keeper) (ctx : Ctx) (txMsg : MsgMint) (r : AccAddress)
    (hvalid : t.ValidateBasicMint txMsg = none)
    (hns : DenomStr.Validate txMsg.Coin.Denom = none)
    (hget : GetAdmin ctx txMsg.Coin.Denom = .ok txMsg.Sender)
    (hrecipient : t.AccAddressFromBech32
      (if txMsg.MintTo = "" then txMsg.Sender else txMsg.MintTo) = .ok r)
    (hblocked : k.BlockedAddr r = false) :
    (Mint t k ctx (some txMsg)).2
      = .ok { MintTo := if txMsg.MintTo = "" then txMsg.Sender else txMsg.MintTo } ∧
    (Mint t k ctx (some txMsg)).1.denomAdmins = ctx.denomAdmins ∧
    (∀ a d, (Mint t k ctx (some txMsg)).1.bank.balances a d
      = if a = r ∧ d = txMsg.Coin.Denom then ctx.bank.balances a d + txMsg.Coin.Amount
        else ctx.bank.balances a d) ∧
    (∀ d, (Mint t k ctx (some txMsg)).1.bank.supply d
      = if d = txMsg.Coin.Denom then ctx.bank.supply d + txMsg.Coin.Amount
        else ctx.bank.supply d) := by
  obtain ⟨hnone, hbal, hsup⟩ := mint_run t k ctx txMsg.Coin
    (if txMsg.MintTo = "" then txMsg.Sender else txMsg.MintTo) txMsg.Sender r
    hns hrecipient hblocked
  have hrun : Mint t k ctx (some txMsg)
      = match mint t k ctx txMsg.Coin
          (if txMsg.MintTo = "" then txMsg.Sender else txMsg.MintTo) txMsg.Sender with
        | (ctx1, some err) => (ctx1, .error err)
        | (ctx1, none) =>
          (EmitTypedEvent ctx1 (.EventMint txMsg.Coin
              (if txMsg.MintTo = "" then txMsg.Sender else txMsg.MintTo) txMsg.Sender),
            .ok { MintTo := if txMsg.MintTo = "" then txMsg.Sender else txMsg.MintTo }) := by
    by_cases hto : txMsg.MintTo = ""
    · simp [Mint, hvalid, hget, hto]
    · simp [Mint, hvalid, hget, hto]
  refine ⟨?_, (Mint_frame t k ctx (some txMsg)).1, ?_, ?_⟩
  all_goals rw [hrun]
  all_goals
    cases hm : mint t k ctx txMsg.Coin
        (if txMsg.MintTo = "" then txMsg.Sender else txMsg.MintTo) txMsg.Sender with
    | mk ctx1 e =>
      rw [hm] at hnone hbal hsup
      cases e with
      | some err => cases hnone
      | none => first | rfl | exact hbal | exact hsup

/-- A `Burn` that passes every check from a source holding the coin: the
authority store stays, the source is debited and the supply shrinks. -/
theorem Burn_run (t : Types) (k : Keeper) (ctx : Ctx) (txMsg : MsgBurn) (src : AccAddress)
    (hvalid : t.ValidateBasicBurn txMsg = none)
    (hns : DenomStr.Validate txMsg.Coin.Denom = none)
    (hget : GetAdmin ctx txMsg.Coin.Denom = .ok txMsg.Sender)
    (hsource : t.AccAddressFromBech32
      (if txMsg.BurnFrom = "" then txMsg.Sender else txMsg.BurnFrom) = .ok src)
    (hblocked : k.BlockedAddr src = false)
    (hholds : txMsg.Coin.Amount ≤ ctx.bank.balances src txMsg.Coin.Denom) :
    (Burn t k ctx (some txMsg)).2 = .ok {} ∧
    (Burn t k ctx (some txMsg)).1.denomAdmins = ctx.denomAdmins ∧
    (∀ a d, (Burn t k ctx (some txMsg)).1.bank.balances a d
      = if a = src ∧ d = txMsg.Coin.Denom then ctx.bank.balances a d - txMsg.Coin.Amount
        else ctx.bank.balances a d) ∧
    (∀ d, (Burn t k ctx (some txMsg)).1.bank.supply d
      = if d = txMsg.Coin.Denom then ctx.bank.supply d - txMsg.Coin.Amount
        else ctx.bank.supply d) := by
  obtain ⟨hnone, hbal, hsup⟩ := burn_run t k ctx txMsg.Coin
    (if txMsg.BurnFrom = "" then txMsg.Sender else txMsg.BurnFrom) txMsg.Sender src
    hns hsource hblocked hholds
  have hrun : Burn t k ctx (some txMsg)
      = match burn t k ctx txMsg.Coin
          (if txMsg.BurnFrom = "" then txMsg.Sender else txMsg.BurnFrom) txMsg.Sender with
        | (ctx1, some err) => (ctx1, .error err)
        | (ctx1, none) =>
          (EmitTypedEvent ctx1 (.EventBurn txMsg.Coin
              (if txMsg.BurnFrom = "" then txMsg.Sender else txMsg.BurnFrom) txMsg.Sender),
            .ok {}) := by
    by_cases hfrom : txMsg.BurnFrom = ""
    · simp [Burn, hvalid, hget, hfrom]
    · simp [Burn, hvalid, hget, hfrom]
  refine ⟨?_, (Burn_frame t k ctx (some txMsg)).1, ?_, ?_⟩
  all_goals rw [hrun]
  all_goals
    cases hb : burn t k ctx txMsg.Coin
        (if txMsg.BurnFrom = "" then txMsg.Sender else txMsg.BurnFrom) txMsg.Sender with
    | mk ctx1 e =>
      rw [hb] at hnone hbal hsup
      cases e with
      | some err => cases hnone
      | none => first | rfl | exact hbal | exact hsup


/-- C12: from a state with no record for `factory/C/gold` and zero balances
and supply of it, the sequence `CreateDenom(C, gold)`; `Mint` of 100 with an
empty `MintTo` by `C`; `ChangeAdmin` to `D` by `C`; the same `Mint` by `C`;
`Burn` of 40 from `C` by `D` gives in order: the denomination
`factory/C/gold` with admin `C`; a balance of 100 for `C`; admin `D`; a
failure with `ErrUnauthorized` that leaves the state as it was; a balance of
60 for `C` and a total supply of 60.  `C` and `D` are distinct, the commands
pass structural validation, and `C` parses to an address that is not
blocked. -/
theorem scenario (t : Types) (k : Keeper) (ctx0 : Ctx) (C D : String) (c : AccAddress)
    (hC : C ≠ "") (hCD : C ≠ D)
    (hparse : t.AccAddressFromBech32 C = .ok c) (hblocked : k.BlockedAddr c = false)
    (hv1 : t.ValidateBasicCreateDenom { Sender := C, Subdenom := "gold" } = none)
    (hv2 : t.ValidateBasicMint
      { Sender := C, Coin := { Denom := "factory/" ++ C ++ "/gold", Amount := 100 },
        MintTo := "" } = none)
    (hv3 : t.ValidateBasicChangeAdmin
      { Sender := C, Denom := "factory/" ++ C ++ "/gold", NewAdmin := D } = none)
    (hv5 : t.ValidateBasicBurn
      { Sender := D, Coin := { Denom := "factory/" ++ C ++ "/gold", Amount := 40 },
        BurnFrom := C } = none)
    (hfresh : ctx0.denomAdmins ("factory/" ++ C ++ "/gold") = none)
    (hzero : ∀ a, ctx0.bank.balances a ("factory/" ++ C ++ "/gold") = 0)
    (hsupply : ctx0.bank.supply ("factory/" ++ C ++ "/gold") = 0) :
    let r1 := CreateDenom t k ctx0 (some { Sender := C, Subdenom := "gold" })
    let r2 := Mint t k r1.1 (some
      { Sender := C, Coin := { Denom := "factory/" ++ C ++ "/gold", Amount := 100 },
        MintTo := "" })
    let r3 := ChangeAdmin t k r2.1 (some
      { Sender := C, Denom := "factory/" ++ C ++ "/gold", NewAdmin := D })
    let r4 := Mint t k r3.1 (some
      { Sender := C, Coin := { Denom := "factory/" ++ C ++ "/gold", Amount := 100 },
        MintTo := "" })
    let r5 := Burn t k r4.1 (some
      { Sender := D, Coin := { Denom := "factory/" ++ C ++ "/gold", Amount := 40 },
        BurnFrom := C })
    (r1.2 = .ok { NewTokenDenom := "factory/" ++ C ++ "/gold" } ∧
      GetAdmin r1.1 ("factory/" ++ C ++ "/gold") = .ok C) ∧
    (r2.2 = .ok { MintTo := C } ∧ r2.1.bank.balances c ("factory/" ++ C ++ "/gold") = 100) ∧
    (r3.2 = .ok {} ∧ GetAdmin r3.1 ("factory/" ++ C ++ "/gold") = .ok D) ∧
    r4 = (r3.1, .error Err.ErrUnauthorized) ∧
    (r5.2 = .ok {} ∧ r5.1.bank.balances c ("factory/" ++ C ++ "/gold") = 60 ∧
      r5.1.bank.supply ("factory/" ++ C ++ "/gold") = 60) := by
  intro r1 r2 r3 r4 r5
  have hcanon : TFDenom.Denom { Creator := C, Subdenom := "gold" }
      = "factory/" ++ C ++ "/gold" := by
    have h0 : FactoryPrefix ++ "/" = "factory/" := by decide
    have h1 : "/" ++ "gold" = "/gold" := by decide
    simp only [TFDenom.Denom, h0, String.append_assoc, h1]
  have hns : DenomStr.Validate ("factory/" ++ C ++ "/gold") = none := by
    rw [← hcanon]
    exact Denom_Validate _
  -- CreateDenom
  have h1 : r1 = (denomAdminsInsert ctx0 ("factory/" ++ C ++ "/gold") { Admin := C },
      .ok { NewTokenDenom := "factory/" ++ C ++ "/gold" }) := by
    simp [r1, CreateDenom, hv1, InsertDenom, hcanon, hfresh]
  have hrec1 : r1.1.denomAdmins ("factory/" ++ C ++ "/gold") = some { Admin := C } := by
    rw [h1]
    simp [denomAdminsInsert]
  have hbank1 : r1.1.bank = ctx0.bank := by
    rw [h1]
    rfl
  have hget1 : GetAdmin r1.1 ("factory/" ++ C ++ "/gold") = .ok C := by
    simp [GetAdmin, GetDenomAuthorityMetadata, hrec1]
  -- Mint by C
  obtain ⟨h2ok, h2store, h2bal, h2sup⟩ := Mint_run t k r1.1
    { Sender := C, Coin := { Denom := "factory/" ++ C ++ "/gold", Amount := 100 },
      MintTo := "" } c hv2 hns hget1 (by simpa using hparse) hblocked
  have hbal2 : r2.1.bank.balances c ("factory/" ++ C ++ "/gold") = 100 := by
    have h := h2bal c ("factory/" ++ C ++ "/gold")
    simp only [and_self, if_true, hbank1, hzero] at h
    simpa using h
  have hsup2 : r2.1.bank.supply ("factory/" ++ C ++ "/gold") = 100 := by
    have h := h2sup ("factory/" ++ C ++ "/gold")
    simp only [if_true, hbank1, hsupply] at h
    simpa using h
  have hrec2 : r2.1.denomAdmins ("factory/" ++ C ++ "/gold") = some { Admin := C } := by
    show (Mint t k r1.1 _).1.denomAdmins _ = _
    rw [h2store, hrec1]
  -- ChangeAdmin to D
  have h3 : r3 = (EmitTypedEvent
      (denomAdminsInsert r2.1 ("factory/" ++ C ++ "/gold") { Admin := D })
      (.EventChangeAdmin ("factory/" ++ C ++ "/gold") C D), .ok {}) := by
    simp [r3, ChangeAdmin, hv3, GetDenomAuthorityMetadata, hrec2]
  have hget3 : GetAdmin r3.1 ("factory/" ++ C ++ "/gold") = .ok D := by
    rw [h3]
    simp [GetAdmin, GetDenomAuthorityMetadata, EmitTypedEvent, denomAdminsInsert]
  have hbank3 : r3.1.bank = r2.1.bank := by
    rw [h3]
    rfl
  -- Mint by C again
  have h4 : r4 = (r3.1, .error Err.ErrUnauthorized) := by
    simp [r4, Mint, hv2, hget3, hCD]
  have h41 : r4.1 = r3.1 := by rw [h4]
  -- Burn by D from C
  have hget4 : GetAdmin r4.1 ("factory/" ++ C ++ "/gold") = .ok D := by
    rw [h41]
    exact hget3
  have hbal4 : r4.1.bank.balances c ("factory/" ++ C ++ "/gold") = 100 := by
    rw [h41, hbank3, hbal2]
  have hsup4 : r4.1.bank.supply ("factory/" ++ C ++ "/gold") = 100 := by
    rw [h41, hbank3, hsup2]
  have hholds : 40 ≤ r4.1.bank.balances c ("factory/" ++ C ++ "/gold") := by
    rw [hbal4]
    decide
  obtain ⟨h5ok, _, h5bal, h5sup⟩ := Burn_run t k r4.1
    { Sender := D, Coin := { Denom := "factory/" ++ C ++ "/gold", Amount := 40 },
      BurnFrom := C } c hv5 hns hget4 (by simpa [hC] using hparse) hblocked hholds
  have hbal5 : r5.1.bank.balances c ("factory/" ++ C ++ "/gold") = 60 := by
    have h := h5bal c ("factory/" ++ C ++ "/gold")
    simp only [and_self, if_true, hbal4] at h
    simpa using h
  have hsup5 : r5.1.bank.supply ("factory/" ++ C ++ "/gold") = 60 := by
    have h := h5sup ("factory/" ++ C ++ "/gold")
    simp only [if_true, hsup4] at h
    simpa using h
  refine ⟨⟨by rw [h1], hget1⟩, ⟨?_, hbal2⟩, ⟨by rw [h3], hget3⟩, h4, ⟨h5ok, hbal5, hsup5⟩⟩
  simpa using h2ok


/-- C12 from the genesis state, with the addresses `C` and `D`: after the five
commands `C` holds 60 of `factory/C/gold` and its total supply is 60. -/
theorem scenario_witness :
    (run sampleTypes sampleKeeper genesisCtx
      [.CreateDenom (some { Sender := "C", Subdenom := "gold" }),
       .Mint (some { Sender := "C", Coin := { Denom := "factory/C/gold", Amount := 100 },
                     MintTo := "" }),
       .ChangeAdmin (some { Sender := "C", Denom := "factory/C/gold", NewAdmin := "D" }),
       .Mint (some { Sender := "C", Coin := { Denom := "factory/C/gold", Amount := 100 },
                     MintTo := "" }),
       .Burn (some { Sender := "D", Coin := { Denom := "factory/C/gold", Amount := 40 },
                     BurnFrom := "C" })]).bank.balances { raw := "C" } "factory/C/gold" = 60 ∧
    (run sampleTypes sampleKeeper genesisCtx
      [.CreateDenom (some { Sender := "C", Subdenom := "gold" }),
       .Mint (some { Sender := "C", Coin := { Denom := "factory/C/gold", Amount := 100 },
                     MintTo := "" }),
       .ChangeAdmin (some { Sender := "C", Denom := "factory/C/gold", NewAdmin := "D" }),
       .Mint (some { Sender := "C", Coin := { Denom := "factory/C/gold", Amount := 100 },
                     MintTo := "" }),
       .Burn (some { Sender := "D", Coin := { Denom := "factory/C/gold", Amount := 40 },
                     BurnFrom := "C" })]).bank.supply "factory/C/gold" = 60 :=
  (scenario sampleTypes sampleKeeper genesisCtx "C" "D" { raw := "C" }
    (by decide) (by decide) rfl (by decide) (by decide) (by decide) (by decide) (by decide)
    rfl (fun _ => rfl) rfl).2.2.2.2.2

end TokenFactory
